import Mathlib

/-!
# Tailnet membership reconciliation

A shallow embedding of `tailscale/resource_tailnet_membership.go` and
`tailscale/membership_api.go`.

* Go strings are Lean strings (sequences of Unicode code points); byte strings
  that are not valid UTF-8 are outside the embedding.
* The remote directory is an explicit state `σ` together with a record of
  handlers (`Remote σ`); every call that leaves the provider is appended to the
  `calls` log of the `World`, so "which calls were issued, in which order" is a
  property of that log.
* `diag.Diagnostics` is `Option Diagnostic`: `none` is the nil value, `some d`
  a diagnostics value holding one error.
-/

namespace Tailscale

/-! ## Strings: `strings.ToLower` and `strings.TrimSpace` -/

/-- Go `unicode.IsSpace`: the Latin-1 white space characters listed in its
documentation and the code points above Latin-1 with the Unicode White_Space
property. -/
def isSpace (c : Char) : Bool :=
  let n := c.toNat
  (9 ≤ n && n ≤ 13) || n == 32 || n == 0x85 || n == 0xA0 || n == 0x1680 ||
  (0x2000 ≤ n && n ≤ 0x200A) || n == 0x2028 || n == 0x2029 || n == 0x202F ||
  n == 0x205F || n == 0x3000

/-- Go `unicode.ToLower`: ASCII is handled inline (`A`..`Z` are shifted by
`'a' - 'A'`, other ASCII code points are unchanged), every other code point is
looked up in the Unicode case tables, which are the parameter `lower`. -/
def toLowerRune (lower : Char → Char) (c : Char) : Char :=
  if c.toNat ≤ 127 then
    if 65 ≤ c.toNat ∧ c.toNat ≤ 90 then Char.ofNat (c.toNat + 32) else c
  else lower c

/-- Go `strings.ToLower`: every code point mapped to its lower case. -/
def ToLower (lower : Char → Char) (s : String) : String :=
  ⟨s.data.map (toLowerRune lower)⟩

/-- Leading and trailing white space removed from a list of code points. -/
def trimSpaceList (l : List Char) : List Char :=
  ((l.dropWhile isSpace).reverse.dropWhile isSpace).reverse

/-- Go `strings.TrimSpace`. -/
def TrimSpace (s : String) : String :=
  ⟨trimSpaceList s.data⟩

/-- The normalization of `membershipResolve`:
`strings.TrimSpace(strings.ToLower(x))`. -/
def normalize (lower : Char → Char) (s : String) : String :=
  TrimSpace (ToLower lower s)

/-! ## Data model -/

/-- State of a membership backed by an open invite. -/
def membershipStatePending : String := "pending"
/-- State of a membership backed by a user that is not suspended. -/
def membershipStateActive : String := "active"
/-- State of a membership backed by a suspended user. -/
def membershipStateDisabled : String := "disabled"

/-- The constant `tailscale.UserStatusSuspended` of the client library. -/
def UserStatusSuspended : String := "suspended"

/-- The invite payload `userInvite` of `membership_api.go`. -/
structure userInvite where
  ID : String
  Email : String
  Role : String
deriving DecidableEq, Repr

/-- The fields of `tailscale.User` that the provider reads. -/
structure User where
  ID : String
  LoginName : String
  Role : String
  Status : String
deriving DecidableEq, Repr

/-- The struct `membershipResolveResult`; `User` is the pointer field, `none`
for nil. -/
structure membershipResolveResult where
  State : String
  Role : String
  InviteID : String
  UserID : String
  User : Option User
deriving DecidableEq, Repr

/-- One diagnostic with severity error. -/
structure Diagnostic where
  Summary : String
  Detail : String
deriving DecidableEq, Repr

/-- Go `diag.Errorf` with an already formatted message. -/
def diagErrorf (msg : String) : Diagnostic := ⟨msg, ""⟩

/-- Go `diag.FromErr`. -/
def diagFromErr (err : String) : Diagnostic := ⟨err, ""⟩

/-- Modelled from the spec: the helper `diagnosticsError` is defined in a file
of the provider that is not among the sources. Every surfaced error is an error
diagnostic made of a human-readable hint and the text of the underlying
error. -/
def diagnosticsError (err : String) (message : String) : Diagnostic := ⟨message, err⟩

/-- The fields of `tailscale.Client` that the provider reads. -/
structure Client where
  Tailnet : String
deriving DecidableEq, Repr

/-- The attributes of the resource (`schema.ResourceData`): the identifier and
the seven schema fields. `d.Get` is a field read, `d.Set` and `d.SetId` are
field updates. -/
structure ResourceData where
  Id : String
  login_name : String
  role : String
  downgrade_on_destroy : Bool
  suspended : Bool
  state : String
  invite_id : String
  user_id : String
deriving DecidableEq, Repr

/-! ## The remote directory and the call log -/

/-- A call that leaves the provider: the user listing of the client library
and the seven requests of `membershipAPIClient`. -/
inductive Call where
  | usersList
  | listUserInvites (tailnet : String)
  | createUserInvite (tailnet email role : String)
  | deleteUserInvite (inviteID : String)
  | suspendUser (userID : String)
  | restoreUser (userID : String)
  | deleteUser (userID : String)
  | updateUserRole (userID role : String)
deriving DecidableEq, Repr

/-- The calls that change the remote directory (the Gateway writes). -/
def Call.isWrite : Call → Bool
  | .usersList => false
  | .listUserInvites _ => false
  | _ => true

/-- A response body: the raw text and what decoding it as a JSON list of
invites yields. -/
structure Body where
  text : String
  invites : Except String (List userInvite)

/-- The part of `http.Response` that the provider reads. -/
structure Response where
  StatusCode : Nat
  Status : String
  Body : Body

/-- The remote directory seen from the provider: a state `σ`, the user listing
of the client library and the HTTP round trip behind `membershipAPIClient.do`.
Either may fail with an error text. -/
structure Remote (σ : Type) where
  users : σ → Except String (List User) × σ
  roundTrip : Call → σ → Except String Response × σ

/-- The remote state together with the log of the calls issued so far. -/
structure World (σ : Type) where
  remote : σ
  calls : List Call

/-- Go `http.StatusOK`. -/
def StatusOK : Nat := 200
/-- Go `http.StatusNotFound`. -/
def StatusNotFound : Nat := 404

variable {σ : Type}

/-- The call `client.Users().List(ctx, nil, nil)`. -/
def usersList (R : Remote σ) (w : World σ) : Except String (List User) × World σ :=
  ((R.users w.remote).1, ⟨(R.users w.remote).2, w.calls ++ [Call.usersList]⟩)

/-- The method `membershipAPIClient.do` for the request `c`. -/
def doCall (R : Remote σ) (c : Call) (w : World σ) : Except String Response × World σ :=
  ((R.roundTrip c w.remote).1, ⟨(R.roundTrip c w.remote).2, w.calls ++ [c]⟩)

/-- The error text `"<op>: <status> (<code>): <body>"` of the API wrappers. -/
def statusError (op : String) (resp : Response) : String :=
  op ++ ": " ++ resp.Status ++ " (" ++ toString resp.StatusCode ++ "): " ++ resp.Body.text

/-- The method `listUserInvites`. -/
def listUserInvites (R : Remote σ) (client : Client) (w : World σ) :
    Except String (List userInvite) × World σ :=
  match doCall R (Call.listUserInvites client.Tailnet) w with
  | (.error err, w1) => (.error err, w1)
  | (.ok resp, w1) =>
    if resp.StatusCode ≠ StatusOK then
      (.error (statusError "list user invites" resp), w1)
    else
      match resp.Body.invites with
      | .error err => (.error err, w1)
      | .ok list => (.ok list, w1)

/-- The method `createUserInvite`. -/
def createUserInvite (R : Remote σ) (client : Client) (email role : String) (w : World σ) :
    Except String userInvite × World σ :=
  match doCall R (Call.createUserInvite client.Tailnet email role) w with
  | (.error err, w1) => (.error err, w1)
  | (.ok resp, w1) =>
    if resp.StatusCode ≠ StatusOK then
      (.error (statusError "create user invite" resp), w1)
    else
      match resp.Body.invites with
      | .error err => (.error err, w1)
      | .ok [] => (.error "create user invite: empty response", w1)
      | .ok (inv :: _) => (.ok inv, w1)

/-- The status check shared by the delete and mutate wrappers: any status
other than 200 and 404 is an error. -/
def checkStatus (op : String) (r : Except String Response × World σ) :
    Option String × World σ :=
  match r with
  | (.error err, w1) => (some err, w1)
  | (.ok resp, w1) =>
    if resp.StatusCode ≠ StatusOK ∧ resp.StatusCode ≠ StatusNotFound then
      (some (statusError op resp), w1)
    else (none, w1)

/-- The method `deleteUserInvite`; `none` is the nil error. -/
def deleteUserInvite (R : Remote σ) (inviteID : String) (w : World σ) :
    Option String × World σ :=
  checkStatus "delete user invite" (doCall R (Call.deleteUserInvite inviteID) w)

/-- The method `suspendUser`. -/
def suspendUser (R : Remote σ) (userID : String) (w : World σ) : Option String × World σ :=
  checkStatus "suspend user" (doCall R (Call.suspendUser userID) w)

/-- The method `restoreUser`. -/
def restoreUser (R : Remote σ) (userID : String) (w : World σ) : Option String × World σ :=
  checkStatus "restore user" (doCall R (Call.restoreUser userID) w)

/-- The method `deleteUser`. -/
def deleteUser (R : Remote σ) (userID : String) (w : World σ) : Option String × World σ :=
  checkStatus "delete user" (doCall R (Call.deleteUser userID) w)

/-- The method `updateUserRole`. -/
def updateUserRole (R : Remote σ) (userID role : String) (w : World σ) :
    Option String × World σ :=
  checkStatus "update user role" (doCall R (Call.updateUserRole userID role) w)

/-! ## Resolve -/

/-- The first loop of `membershipResolve`: the first invite whose normalized
email equals `normalized` gives the pending result. -/
def matchInvite (lower : Char → Char) (normalized : String) :
    List userInvite → Option membershipResolveResult
  | [] => none
  | inv :: rest =>
    if normalize lower inv.Email = normalized then
      some { State := membershipStatePending, Role := inv.Role, InviteID := inv.ID,
             UserID := "", User := none }
    else matchInvite lower normalized rest

/-- The second loop of `membershipResolve`: the first user whose normalized
login name equals `normalized` gives the active or disabled result. -/
def matchUser (lower : Char → Char) (normalized : String) :
    List User → Option membershipResolveResult
  | [] => none
  | u :: rest =>
    if normalize lower u.LoginName = normalized then
      some { State := if u.Status = UserStatusSuspended then membershipStateDisabled
                      else membershipStateActive,
             Role := u.Role, InviteID := "", UserID := u.ID, User := some u }
    else matchUser lower normalized rest

/-- The function `membershipResolve`. The result `.ok none` is the nil result
without error. -/
def membershipResolve (lower : Char → Char) (R : Remote σ) (client : Client)
    (loginName : String) (w : World σ) :
    Except Diagnostic (Option membershipResolveResult) × World σ :=
  let normalized := normalize lower loginName
  if normalized = "" then
    (.error (diagErrorf "login_name is empty"), w)
  else
    match usersList R w with
    | (.error err, w1) =>
      (.error (diagnosticsError err "Failed to list users for membership resolve"), w1)
    | (.ok users, w1) =>
      match listUserInvites R client w1 with
      | (.error err, w2) =>
        (.error (diagnosticsError err "Failed to list user invites for membership resolve"), w2)
      | (.ok invites, w2) =>
        match matchInvite lower normalized invites with
        | some r => (.ok (some r), w2)
        | none =>
          match matchUser lower normalized users with
          | some r => (.ok (some r), w2)
          | none => (.ok none, w2)

/-! ## Identifiers -/

/-- The function `resourceTailnetMembershipID`. -/
def resourceTailnetMembershipID (tailnet loginName : String) : String :=
  tailnet ++ ":" ++ loginName

/-- The function `parseMembershipID`. The separator is an ASCII character, so
its first byte position `idx` splits the code points exactly where it splits
the bytes: `idx <= 0` says that no separator occurs or that it comes first,
`idx >= len(id)-1` that nothing follows the first separator. In the error text
the verb `%q` is rendered as the identifier between double quotes, which is what
Go prints for an identifier without a double quote, a backslash or a
non-printable character; for other identifiers only the text of the error
differs. -/
def parseMembershipID (id : String) : Except String (String × String) :=
  let pre := id.data.takeWhile (fun c => c ≠ ':')
  let post := (id.data.dropWhile (fun c => c ≠ ':')).drop 1
  if pre = [] ∨ post = [] then
    .error ("invalid membership id \"" ++ id ++ "\" (expected tailnet:login_name)")
  else .ok (⟨pre⟩, ⟨post⟩)

/-- The three values that `parseMembershipID` returns in Go, `none` being the
nil error: on the error path both strings are empty. -/
def parseMembershipIDValues (id : String) : String × String × Option String :=
  let pre := id.data.takeWhile (fun c => c ≠ ':')
  let post := (id.data.dropWhile (fun c => c ≠ ':')).drop 1
  if pre = [] ∨ post = [] then
    ("", "", some ("invalid membership id \"" ++ id ++ "\" (expected tailnet:login_name)"))
  else (⟨pre⟩, ⟨post⟩, none)

/-! ## The resource operations -/

/-- What an operation leaves behind: the returned diagnostics (`none` for nil),
the resource data and the world. -/
structure Outcome (σ : Type) where
  diags : Option Diagnostic
  d : ResourceData
  w : World σ

/-- The function `resourceTailnetMembershipRead`. -/
def resourceTailnetMembershipRead (lower : Char → Char) (R : Remote σ) (client : Client)
    (d : ResourceData) (w : World σ) : Outcome σ :=
  match parseMembershipID d.Id with
  | .error err => ⟨some (diagFromErr err), d, w⟩
  | .ok (_, loginName) =>
    match membershipResolve lower R client loginName w with
    | (.error diags, w1) => ⟨some diags, d, w1⟩
    | (.ok none, w1) => ⟨none, { d with Id := "" }, w1⟩
    | (.ok (some resolved), w1) =>
      let d1 := { d with login_name := loginName, state := resolved.State,
                         role := resolved.Role }
      let d2 :=
        if resolved.InviteID ≠ "" then
          { d1 with invite_id := resolved.InviteID, user_id := "" }
        else
          { d1 with invite_id := "", user_id := resolved.UserID }
      let d3 :=
        if resolved.State = membershipStateDisabled then { d2 with suspended := true }
        else { d2 with suspended := false }
      ⟨none, d3, w1⟩

/-- The function `resourceTailnetMembershipCreate`. -/
def resourceTailnetMembershipCreate (lower : Char → Char) (R : Remote σ) (client : Client)
    (d : ResourceData) (w : World σ) : Outcome σ :=
  let tailnet := if client.Tailnet = "" then "-" else client.Tailnet
  let loginName := d.login_name
  let desiredRole := d.role
  match membershipResolve lower R client loginName w with
  | (.error diags, w1) => ⟨some diags, d, w1⟩
  | (.ok (some _), w1) =>
    resourceTailnetMembershipRead lower R client
      { d with Id := resourceTailnetMembershipID tailnet loginName } w1
  | (.ok none, w1) =>
    match createUserInvite R client loginName desiredRole w1 with
    | (.error err, w2) =>
      ⟨some (diagnosticsError err
        "Failed to create user invite; ensure your token has UserInvites scope and the identity is valid"),
        d, w2⟩
    | (.ok invite, w2) =>
      ⟨none, { d with Id := resourceTailnetMembershipID tailnet loginName,
                      state := membershipStatePending, invite_id := invite.ID,
                      role := invite.Role }, w2⟩

/-- The function `resourceTailnetMembershipUpdate`. In the text of the "not
found" error the verb `%q` is rendered as the login name between double
quotes. -/
def resourceTailnetMembershipUpdate (lower : Char → Char) (R : Remote σ) (client : Client)
    (d : ResourceData) (w : World σ) : Outcome σ :=
  match parseMembershipID d.Id with
  | .error err => ⟨some (diagFromErr err), d, w⟩
  | .ok (_, loginName) =>
    match membershipResolve lower R client loginName w with
    | (.error diags, w1) => ⟨some diags, d, w1⟩
    | (.ok none, w1) =>
      ⟨some (diagErrorf ("membership not found for login_name \"" ++ loginName ++ "\"")), d, w1⟩
    | (.ok (some resolved), w1) =>
      let desiredRole := d.role
      let desiredSuspended := d.suspended
      if resolved.State = membershipStatePending then
        resourceTailnetMembershipRead lower R client d w1
      else if resolved.UserID ≠ "" then
        let roleStep : Option String × World σ :=
          if resolved.Role ≠ desiredRole then updateUserRole R resolved.UserID desiredRole w1
          else (none, w1)
        match roleStep with
        | (some err, w2) => ⟨some (diagnosticsError err "Failed to update user role"), d, w2⟩
        | (none, w2) =>
          let wantDisabled := desiredSuspended
          let isDisabled : Bool := resolved.State = membershipStateDisabled
          if wantDisabled ∧ ¬ isDisabled then
            match suspendUser R resolved.UserID w2 with
            | (some err, w3) =>
              ⟨some (diagnosticsError err
                "Failed to suspend user; ensure you are not the last admin or account owner"),
                d, w3⟩
            | (none, w3) => resourceTailnetMembershipRead lower R client d w3
          else if ¬ wantDisabled ∧ isDisabled then
            match restoreUser R resolved.UserID w2 with
            | (some err, w3) => ⟨some (diagnosticsError err "Failed to restore user"), d, w3⟩
            | (none, w3) => resourceTailnetMembershipRead lower R client d w3
          else resourceTailnetMembershipRead lower R client d w2
      else resourceTailnetMembershipRead lower R client d w1

/-- The function `resourceTailnetMembershipDelete`. The errors of the two calls
of the downgrade branch are discarded, as in the source. -/
def resourceTailnetMembershipDelete (lower : Char → Char) (R : Remote σ) (client : Client)
    (d : ResourceData) (w : World σ) : Outcome σ :=
  match parseMembershipID d.Id with
  | .error err => ⟨some (diagFromErr err), d, w⟩
  | .ok (_, loginName) =>
    match membershipResolve lower R client loginName w with
    | (.error diags, w1) => ⟨some diags, d, w1⟩
    | (.ok none, w1) => ⟨none, d, w1⟩
    | (.ok (some resolved), w1) =>
      let downgrade := d.downgrade_on_destroy
      if resolved.State = membershipStatePending then
        match deleteUserInvite R resolved.InviteID w1 with
        | (some err, w2) => ⟨some (diagnosticsError err "Failed to delete user invite"), d, w2⟩
        | (none, w2) => ⟨none, d, w2⟩
      else if resolved.UserID ≠ "" then
        if downgrade then
          let w2 := (updateUserRole R resolved.UserID "member" w1).2
          let w3 := (suspendUser R resolved.UserID w2).2
          ⟨none, d, w3⟩
        else
          match deleteUser R resolved.UserID w1 with
          | (some err, w2) =>
            ⟨some (diagnosticsError err
              "Failed to delete user; ensure you are not the last admin or account owner"),
              d, w2⟩
          | (none, w2) => ⟨none, d, w2⟩
      else ⟨none, d, w1⟩

/-- The function `resourceTailnetMembershipImport`: `none` is the nil error,
with which the resource data is returned as it is. -/
def resourceTailnetMembershipImport (d : ResourceData) : Option String :=
  match parseMembershipID d.Id with
  | .error err => some err
  | .ok _ => none

/-! ## A model of the remote directory -/

/-- The state of a model of the remote directory service, which is external to
the provider: the pending invitations and the user records of the spec's data
model. -/
structure Directory where
  invites : List userInvite
  users : List User
deriving DecidableEq, Repr

/-- A 200 response without invites in its body. -/
def okResponse : Response := ⟨200, "200 OK", ⟨"", .ok []⟩⟩

/-- The user records with the status of the user `id` replaced. -/
def Directory.setStatus (id status : String) (users : List User) : List User :=
  users.map (fun u => if u.ID = id then { u with Status := status } else u)

/-- The user records with the role of the user `id` replaced. -/
def Directory.setRole (id role : String) (users : List User) : List User :=
  users.map (fun u => if u.ID = id then { u with Role := role } else u)

/-- A model of the remote directory service, external to the provider, with the
behaviour the spec's state machine describes. Listing returns the stored
collections; creating an invitation adds one invitation with the given email and
role and returns it; deleting an invitation and removing a user delete by id;
suspend and restore set the status of the user with that id; setting a role
replaces its role. Every call succeeds with status 200. -/
def directory : Remote Directory where
  users := fun s => (.ok s.users, s)
  roundTrip := fun c s =>
    match c with
    | .usersList => (.ok okResponse, s)
    | .listUserInvites _ => (.ok ⟨200, "200 OK", ⟨"", .ok s.invites⟩⟩, s)
    | .createUserInvite _ email role =>
      (.ok ⟨200, "200 OK", ⟨"", .ok [⟨"inv" ++ toString s.invites.length, email, role⟩]⟩⟩,
        ⟨s.invites ++ [⟨"inv" ++ toString s.invites.length, email, role⟩], s.users⟩)
    | .deleteUserInvite id => (.ok okResponse, ⟨s.invites.filter (fun i => i.ID ≠ id), s.users⟩)
    | .suspendUser id =>
      (.ok okResponse, ⟨s.invites, Directory.setStatus id UserStatusSuspended s.users⟩)
    | .restoreUser id => (.ok okResponse, ⟨s.invites, Directory.setStatus id "active" s.users⟩)
    | .deleteUser id => (.ok okResponse, ⟨s.invites, s.users.filter (fun u => u.ID ≠ id)⟩)
    | .updateUserRole id role => (.ok okResponse, ⟨s.invites, Directory.setRole id role s.users⟩)

/-- The remote `R` with fault injection: a call selected by `deny` is answered
with status 403 and leaves the remote state unchanged. -/
def Remote.denying (R : Remote σ) (deny : Call → Bool) : Remote σ where
  users := R.users
  roundTrip := fun c s =>
    if deny c then (.ok ⟨403, "403 Forbidden", ⟨"forbidden", .error "not a list"⟩⟩, s)
    else R.roundTrip c s

/-- A remote without state that answers every request with the response
`resp` and lists no users. -/
def answering (resp : Response) : Remote Unit where
  users := fun s => (.ok [], s)
  roundTrip := fun _ s => (.ok resp, s)

/-! ## The two mutation steps of the update path -/

/-- The role step of `resourceTailnetMembershipUpdate` (the `if` on
`resolved.Role != desiredRole`): the error of the role call, if any, and the
world after it. -/
def updateRoleStep (R : Remote σ) (resolved : membershipResolveResult) (desiredRole : String)
    (w : World σ) : Option String × World σ :=
  if resolved.Role ≠ desiredRole then updateUserRole R resolved.UserID desiredRole w
  else (none, w)

/-- The suspension step of `resourceTailnetMembershipUpdate` (the `if` on
`wantDisabled` and `isDisabled`): the diagnostics of the failed call, if any,
and the world after it. -/
def updateSuspensionStep (R : Remote σ) (resolved : membershipResolveResult)
    (desiredSuspended : Bool) (w : World σ) : Option Diagnostic × World σ :=
  let wantDisabled := desiredSuspended
  let isDisabled : Bool := resolved.State = membershipStateDisabled
  if wantDisabled ∧ ¬ isDisabled then
    match suspendUser R resolved.UserID w with
    | (some err, w3) =>
      (some (diagnosticsError err
        "Failed to suspend user; ensure you are not the last admin or account owner"), w3)
    | (none, w3) => (none, w3)
  else if ¬ wantDisabled ∧ isDisabled then
    match restoreUser R resolved.UserID w with
    | (some err, w3) => (some (diagnosticsError err "Failed to restore user"), w3)
    | (none, w3) => (none, w3)
  else (none, w)

/-! ## Vocabulary of the statements -/

/-- The Gateway writes among the calls of a log, in the order of issue. -/
def writes (calls : List Call) : List Call := calls.filter Call.isWrite

/-- The role mutation `setRole`. -/
def Call.isSetRole : Call → Bool
  | .updateUserRole _ _ => true
  | _ => false

/-- The suspension mutations `suspend` and `restore`. -/
def Call.isSuspension : Call → Bool
  | .suspendUser _ => true
  | .restoreUser _ => true
  | _ => false

/-- The invitation creation `createInvitation`. -/
def Call.isCreate : Call → Bool
  | .createUserInvite _ _ _ => true
  | _ => false

/-- The pending result that `membershipResolve` builds from an invite. -/
def pendingResult (inv : userInvite) : membershipResolveResult :=
  { State := membershipStatePending, Role := inv.Role, InviteID := inv.ID,
    UserID := "", User := none }

/-- The resolved result that `membershipResolve` builds from a user. -/
def userResult (u : User) : membershipResolveResult :=
  { State := if u.Status = UserStatusSuspended then membershipStateDisabled
             else membershipStateActive,
    Role := u.Role, InviteID := "", UserID := u.ID, User := some u }

/-- The string `t` differs from `s` only in letter case or in leading and
trailing white space: after removing some white space at both ends of each, the
remaining code points agree position by position up to their case. -/
def CaseSpaceVariant (lower : Char → Char) (s t : String) : Prop :=
  ∃ a₁ u a₂ b₁ v b₂ : List Char,
    s.data = a₁ ++ u ++ a₂ ∧ t.data = b₁ ++ v ++ b₂ ∧
    (∀ c ∈ a₁ ++ a₂ ++ b₁ ++ b₂, isSpace c = true) ∧
    u.map (toLowerRune lower) = v.map (toLowerRune lower)

/-! ## Lemmas on the call log -/

theorem usersList_calls (R : Remote σ) (w : World σ) :
    (usersList R w).2.calls = w.calls ++ [Call.usersList] := rfl

theorem doCall_calls (R : Remote σ) (c : Call) (w : World σ) :
    (doCall R c w).2.calls = w.calls ++ [c] := rfl

theorem listUserInvites_calls (R : Remote σ) (client : Client) (w : World σ) :
    (listUserInvites R client w).2.calls = w.calls ++ [Call.listUserInvites client.Tailnet] := by
  unfold listUserInvites
  rcases h : doCall R (Call.listUserInvites client.Tailnet) w with ⟨r, w1⟩
  have hc : w1.calls = w.calls ++ [Call.listUserInvites client.Tailnet] := by
    have := doCall_calls R (Call.listUserInvites client.Tailnet) w
    rw [h] at this; exact this
  cases r with
  | error e => simpa using hc
  | ok resp =>
    simp only
    split
    · exact hc
    · split <;> exact hc

theorem createUserInvite_calls (R : Remote σ) (client : Client) (email role : String)
    (w : World σ) :
    (createUserInvite R client email role w).2.calls =
      w.calls ++ [Call.createUserInvite client.Tailnet email role] := by
  unfold createUserInvite
  rcases h : doCall R (Call.createUserInvite client.Tailnet email role) w with ⟨r, w1⟩
  have hc : w1.calls = w.calls ++ [Call.createUserInvite client.Tailnet email role] := by
    have := doCall_calls R (Call.createUserInvite client.Tailnet email role) w
    rw [h] at this; exact this
  cases r with
  | error e => simpa using hc
  | ok resp =>
    simp only
    split
    · exact hc
    · split <;> exact hc

theorem checkStatus_world (op : String) (r : Except String Response × World σ) :
    (checkStatus op r).2 = r.2 := by
  unfold checkStatus
  rcases r with ⟨r, w1⟩
  cases r with
  | error e => rfl
  | ok resp => simp only; split <;> rfl

theorem deleteUserInvite_calls (R : Remote σ) (id : String) (w : World σ) :
    (deleteUserInvite R id w).2.calls = w.calls ++ [Call.deleteUserInvite id] := by
  unfold deleteUserInvite; rw [checkStatus_world]; rfl

theorem suspendUser_calls (R : Remote σ) (id : String) (w : World σ) :
    (suspendUser R id w).2.calls = w.calls ++ [Call.suspendUser id] := by
  unfold suspendUser; rw [checkStatus_world]; rfl

theorem restoreUser_calls (R : Remote σ) (id : String) (w : World σ) :
    (restoreUser R id w).2.calls = w.calls ++ [Call.restoreUser id] := by
  unfold restoreUser; rw [checkStatus_world]; rfl

theorem deleteUser_calls (R : Remote σ) (id : String) (w : World σ) :
    (deleteUser R id w).2.calls = w.calls ++ [Call.deleteUser id] := by
  unfold deleteUser; rw [checkStatus_world]; rfl

theorem updateUserRole_calls (R : Remote σ) (id role : String) (w : World σ) :
    (updateUserRole R id role w).2.calls = w.calls ++ [Call.updateUserRole id role] := by
  unfold updateUserRole; rw [checkStatus_world]; rfl

/-- The calls of `membershipResolve` are the two listings, in this order, or a
prefix of them. -/
theorem membershipResolve_calls (lower : Char → Char) (R : Remote σ) (client : Client)
    (loginName : String) (w : World σ) :
    (membershipResolve lower R client loginName w).2.calls = w.calls ∨
    (membershipResolve lower R client loginName w).2.calls = w.calls ++ [Call.usersList] ∨
    (membershipResolve lower R client loginName w).2.calls =
      w.calls ++ [Call.usersList, Call.listUserInvites client.Tailnet] := by
  unfold membershipResolve
  simp only
  split
  · exact Or.inl rfl
  · rcases hu : usersList R w with ⟨ru, w1⟩
    have hc1 : w1.calls = w.calls ++ [Call.usersList] := by
      have := usersList_calls R w
      rw [hu] at this; exact this
    cases ru with
    | error e => exact Or.inr (Or.inl hc1)
    | ok users =>
      simp only
      rcases hi : listUserInvites R client w1 with ⟨ri, w2⟩
      have hc2 : w2.calls = w.calls ++ [Call.usersList, Call.listUserInvites client.Tailnet] := by
        have := listUserInvites_calls R client w1
        rw [hi, hc1] at this
        simpa using this
      refine Or.inr (Or.inr ?_)
      cases ri with
      | error e => exact hc2
      | ok invites =>
        simp only
        split
        · exact hc2
        · split <;> exact hc2

/-- Resolving issues no Gateway write. -/
theorem membershipResolve_writes (lower : Char → Char) (R : Remote σ) (client : Client)
    (loginName : String) (w : World σ) :
    writes (membershipResolve lower R client loginName w).2.calls = writes w.calls := by
  rcases membershipResolve_calls lower R client loginName w with h | h | h <;>
    rw [h] <;> simp [writes, Call.isWrite]

/-! ## Lemmas on the two scans -/

theorem matchInvite_eq_none (lower : Char → Char) (n : String) (invites : List userInvite) :
    matchInvite lower n invites = none ↔ ∀ inv ∈ invites, normalize lower inv.Email ≠ n := by
  induction invites with
  | nil => simp [matchInvite]
  | cons inv rest ih =>
    unfold matchInvite
    by_cases h : normalize lower inv.Email = n
    · simp [h]
    · simp [h, ih]

theorem matchUser_eq_none (lower : Char → Char) (n : String) (users : List User) :
    matchUser lower n users = none ↔ ∀ u ∈ users, normalize lower u.LoginName ≠ n := by
  induction users with
  | nil => simp [matchUser]
  | cons u rest ih =>
    unfold matchUser
    by_cases h : normalize lower u.LoginName = n
    · simp [h]
    · simp [h, ih]

theorem matchInvite_first (lower : Char → Char) (n : String) (pre post : List userInvite)
    (inv : userInvite) (hpre : ∀ i ∈ pre, normalize lower i.Email ≠ n)
    (hinv : normalize lower inv.Email = n) :
    matchInvite lower n (pre ++ inv :: post) = some (pendingResult inv) := by
  induction pre with
  | nil => simp [matchInvite, hinv, pendingResult]
  | cons i rest ih =>
    have hi : normalize lower i.Email ≠ n := hpre i (List.mem_cons_self _ _)
    have hrest : ∀ j ∈ rest, normalize lower j.Email ≠ n :=
      fun j hj => hpre j (List.mem_cons_of_mem _ hj)
    simp only [List.cons_append, matchInvite, hi, if_false]
    exact ih hrest

theorem matchUser_first (lower : Char → Char) (n : String) (pre post : List User)
    (u : User) (hpre : ∀ v ∈ pre, normalize lower v.LoginName ≠ n)
    (hu : normalize lower u.LoginName = n) :
    matchUser lower n (pre ++ u :: post) = some (userResult u) := by
  induction pre with
  | nil => simp [matchUser, hu, userResult]
  | cons v rest ih =>
    have hv : normalize lower v.LoginName ≠ n := hpre v (List.mem_cons_self _ _)
    have hrest : ∀ j ∈ rest, normalize lower j.LoginName ≠ n :=
      fun j hj => hpre j (List.mem_cons_of_mem _ hj)
    simp only [List.cons_append, matchUser, hv, if_false]
    exact ih hrest

theorem matchInvite_eq_some (lower : Char → Char) (n : String) (invites : List userInvite)
    (r : membershipResolveResult) (h : matchInvite lower n invites = some r) :
    ∃ pre inv post, invites = pre ++ inv :: post ∧
      (∀ i ∈ pre, normalize lower i.Email ≠ n) ∧ normalize lower inv.Email = n ∧
      r = pendingResult inv := by
  induction invites with
  | nil => simp [matchInvite] at h
  | cons i rest ih =>
    unfold matchInvite at h
    by_cases hi : normalize lower i.Email = n
    · simp only [hi, if_true, Option.some.injEq] at h
      exact ⟨[], i, rest, rfl, by simp, hi, h.symm⟩
    · simp only [hi, if_false] at h
      obtain ⟨pre, inv, post, hsplit, hpre, hinv, hr⟩ := ih h
      refine ⟨i :: pre, inv, post, by simp [hsplit], ?_, hinv, hr⟩
      intro j hj
      rcases List.mem_cons.mp hj with rfl | hj
      · exact hi
      · exact hpre j hj

theorem matchUser_eq_some (lower : Char → Char) (n : String) (users : List User)
    (r : membershipResolveResult) (h : matchUser lower n users = some r) :
    ∃ pre u post, users = pre ++ u :: post ∧
      (∀ v ∈ pre, normalize lower v.LoginName ≠ n) ∧ normalize lower u.LoginName = n ∧
      r = userResult u := by
  induction users with
  | nil => simp [matchUser] at h
  | cons v rest ih =>
    unfold matchUser at h
    by_cases hv : normalize lower v.LoginName = n
    · simp only [hv, if_true, Option.some.injEq] at h
      exact ⟨[], v, rest, rfl, by simp, hv, h.symm⟩
    · simp only [hv, if_false] at h
      obtain ⟨pre, u, post, hsplit, hpre, hu, hr⟩ := ih h
      refine ⟨v :: pre, u, post, by simp [hsplit], ?_, hu, hr⟩
      intro j hj
      rcases List.mem_cons.mp hj with rfl | hj
      · exact hv
      · exact hpre j hj

/-- With a non-empty normalized identity and both listings successful,
`membershipResolve` is the invite scan followed by the user scan. -/
theorem membershipResolve_of_lists (lower : Char → Char) (R : Remote σ) (client : Client)
    (identity : String) (w w1 w2 : World σ) (users : List User) (invites : List userInvite)
    (hne : normalize lower identity ≠ "")
    (hu : usersList R w = (.ok users, w1))
    (hi : listUserInvites R client w1 = (.ok invites, w2)) :
    membershipResolve lower R client identity w =
      (.ok ((matchInvite lower (normalize lower identity) invites).orElse
        (fun _ => matchUser lower (normalize lower identity) users)), w2) := by
  unfold membershipResolve
  simp only [hne, if_false, hu, hi]
  cases hmi : matchInvite lower (normalize lower identity) invites with
  | some r => simp [Option.orElse]
  | none =>
    cases hmu : matchUser lower (normalize lower identity) users with
    | some r => simp [Option.orElse]
    | none => simp [Option.orElse]

/-- Every successful result of `membershipResolve` comes from the two scans
over two successfully listed collections. -/
theorem membershipResolve_ok (lower : Char → Char) (R : Remote σ) (client : Client)
    (identity : String) (w w2 : World σ) (res : Option membershipResolveResult)
    (h : membershipResolve lower R client identity w = (.ok res, w2)) :
    normalize lower identity ≠ "" ∧
    ∃ users w1 invites, usersList R w = (.ok users, w1) ∧
      listUserInvites R client w1 = (.ok invites, w2) ∧
      res = (matchInvite lower (normalize lower identity) invites).orElse
        (fun _ => matchUser lower (normalize lower identity) users) := by
  by_cases hne : normalize lower identity = ""
  · simp [membershipResolve, hne] at h
  · refine ⟨hne, ?_⟩
    rcases hu : usersList R w with ⟨ru, w1⟩
    cases ru with
    | error e => simp [membershipResolve, hne, hu] at h
    | ok users =>
      rcases hi : listUserInvites R client w1 with ⟨ri, w2'⟩
      cases ri with
      | error e => simp [membershipResolve, hne, hu, hi] at h
      | ok invites =>
        rw [membershipResolve_of_lists lower R client identity w w1 w2' users invites hne hu hi] at h
        simp only [Prod.mk.injEq, Except.ok.injEq] at h
        exact ⟨users, w1, invites, rfl, by rw [← h.2]; exact hi, h.1.symm⟩

/-- A successful result that carries a user record is the result built from
that record. -/
theorem membershipResolve_user (lower : Char → Char) (R : Remote σ) (client : Client)
    (identity : String) (w w2 : World σ) (r : membershipResolveResult) (u : User)
    (h : membershipResolve lower R client identity w = (.ok (some r), w2))
    (hu : r.User = some u) : r = userResult u := by
  obtain ⟨_, users, w1, invites, _, _, hres⟩ := membershipResolve_ok lower R client identity w w2 _ h
  cases hmi : matchInvite lower (normalize lower identity) invites with
  | some r' =>
    rw [hmi] at hres
    simp only [Option.orElse, Option.some.injEq] at hres
    obtain ⟨_, inv, _, _, _, _, hr⟩ := matchInvite_eq_some lower _ invites r' hmi
    rw [hres, hr] at hu
    simp [pendingResult] at hu
  | none =>
    rw [hmi] at hres
    simp only [Option.orElse] at hres
    obtain ⟨_, u', _, _, _, _, hr⟩ := matchUser_eq_some lower _ users r hres.symm
    rw [hr] at hu
    simp only [userResult, Option.some.injEq] at hu
    rw [hr, hu]

/-- A successful result is pending exactly when it carries no user record. -/
theorem membershipResolve_state (lower : Char → Char) (R : Remote σ) (client : Client)
    (identity : String) (w w2 : World σ) (r : membershipResolveResult)
    (h : membershipResolve lower R client identity w = (.ok (some r), w2)) :
    (∃ inv, r = pendingResult inv) ∨ (∃ u, r = userResult u) := by
  obtain ⟨_, users, w1, invites, _, _, hres⟩ := membershipResolve_ok lower R client identity w w2 _ h
  cases hmi : matchInvite lower (normalize lower identity) invites with
  | some r' =>
    rw [hmi] at hres
    simp only [Option.orElse, Option.some.injEq] at hres
    obtain ⟨_, inv, _, _, _, _, hr⟩ := matchInvite_eq_some lower _ invites r' hmi
    exact Or.inl ⟨inv, by rw [hres, hr]⟩
  | none =>
    rw [hmi] at hres
    simp only [Option.orElse] at hres
    obtain ⟨_, u', _, _, _, _, hr⟩ := matchUser_eq_some lower _ users r hres.symm
    exact Or.inr ⟨u', hr⟩

theorem userResult_state_ne_pending (u : User) :
    (userResult u).State ≠ membershipStatePending := by
  unfold userResult
  by_cases h : u.Status = UserStatusSuspended <;> simp [h] <;> decide

/-! ## Lemmas on the normalization -/

theorem dropWhile_append_of_all (p : Char → Bool) (a x : List Char)
    (h : ∀ c ∈ a, p c = true) : (a ++ x).dropWhile p = x.dropWhile p := by
  induction a with
  | nil => rfl
  | cons c rest ih =>
    have hc : p c = true := h c (List.mem_cons_self _ _)
    simp only [List.cons_append, List.dropWhile_cons, hc, if_true]
    exact ih (fun d hd => h d (List.mem_cons_of_mem _ hd))

theorem dropWhile_append_of_exists (p : Char → Bool) (x b : List Char)
    (h : ∃ c ∈ x, p c = false) : (x ++ b).dropWhile p = x.dropWhile p ++ b := by
  induction x with
  | nil => simp at h
  | cons c rest ih =>
    by_cases hc : p c = true
    · simp only [List.cons_append, List.dropWhile_cons, hc, if_true]
      apply ih
      obtain ⟨d, hd, hpd⟩ := h
      rcases List.mem_cons.mp hd with rfl | hd
      · rw [hc] at hpd; cases hpd
      · exact ⟨d, hd, hpd⟩
    · simp [List.dropWhile_cons, hc]

theorem dropWhile_of_all (p : Char → Bool) (x : List Char) (h : ∀ c ∈ x, p c = true) :
    x.dropWhile p = [] := by
  have := dropWhile_append_of_all p x [] h
  simpa using this

theorem trimSpaceList_space_append (a x : List Char) (ha : ∀ c ∈ a, isSpace c = true) :
    trimSpaceList (a ++ x) = trimSpaceList x := by
  unfold trimSpaceList
  rw [dropWhile_append_of_all isSpace a x ha]

theorem trimSpaceList_append_space (x b : List Char) (hb : ∀ c ∈ b, isSpace c = true) :
    trimSpaceList (x ++ b) = trimSpaceList x := by
  unfold trimSpaceList
  by_cases hx : ∀ c ∈ x, isSpace c = true
  · have hxb : ∀ c ∈ x ++ b, isSpace c = true := by
      intro c hc
      rcases List.mem_append.mp hc with h | h
      · exact hx c h
      · exact hb c h
    rw [dropWhile_of_all isSpace (x ++ b) hxb, dropWhile_of_all isSpace x hx]
  · have hex : ∃ c ∈ x, isSpace c = false := by
      by_contra hcon
      apply hx
      intro c hc
      by_contra hsp
      exact hcon ⟨c, hc, by simpa using hsp⟩
    rw [dropWhile_append_of_exists isSpace x b hex, List.reverse_append]
    rw [dropWhile_append_of_all isSpace b.reverse _ (fun c hc => hb c (List.mem_reverse.mp hc))]

theorem isSpace_false_of_upper (c : Char) (h : 65 ≤ c.toNat ∧ c.toNat ≤ 90) :
    isSpace c = false := by
  unfold isSpace
  simp only [Bool.or_eq_false_iff, Bool.and_eq_false_iff, decide_eq_false_iff_not,
    beq_eq_false_iff_ne]
  omega

/-- Lower-casing keeps white space white, provided the case tables do. -/
theorem toLowerRune_space (lower : Char → Char)
    (hsp : ∀ c, isSpace c = true → isSpace (lower c) = true) (c : Char)
    (hc : isSpace c = true) : isSpace (toLowerRune lower c) = true := by
  unfold toLowerRune
  split
  · split
    · rename_i hup
      rw [isSpace_false_of_upper c hup] at hc
      cases hc
    · exact hc
  · exact hsp c hc

/-- Strings that differ only in letter case or in surrounding white space have
the same normalized form. -/
theorem normalize_variant (lower : Char → Char)
    (hsp : ∀ c, isSpace c = true → isSpace (lower c) = true) (s t : String)
    (h : CaseSpaceVariant lower s t) : normalize lower s = normalize lower t := by
  obtain ⟨a₁, u, a₂, b₁, v, b₂, hs, ht, hws, huv⟩ := h
  have key : ∀ (a x b : List Char), (∀ c ∈ a, isSpace c = true) → (∀ c ∈ b, isSpace c = true) →
      trimSpaceList ((a ++ x ++ b).map (toLowerRune lower)) =
        trimSpaceList (x.map (toLowerRune lower)) := by
    intro a x b ha hb
    rw [List.map_append, List.map_append, trimSpaceList_append_space, trimSpaceList_space_append]
    · intro c hc
      obtain ⟨d, hd, rfl⟩ := List.mem_map.mp hc
      exact toLowerRune_space lower hsp d (ha d hd)
    · intro c hc
      obtain ⟨d, hd, rfl⟩ := List.mem_map.mp hc
      exact toLowerRune_space lower hsp d (hb d hd)
  unfold normalize TrimSpace ToLower
  simp only [hs, ht]
  rw [key a₁ u a₂ (fun c hc => hws c (by simp [hc])) (fun c hc => hws c (by simp [hc])),
    key b₁ v b₂ (fun c hc => hws c (by simp [hc])) (fun c hc => hws c (by simp [hc])), huv]

/-! ## Lemmas on Read -/

/-- What `resourceTailnetMembershipRead` stores when the identity resolves. -/
theorem read_of_resolved (lower : Char → Char) (R : Remote σ) (client : Client)
    (d : ResourceData) (w w1 : World σ) (tn loginName : String) (r : membershipResolveResult)
    (hid : parseMembershipID d.Id = .ok (tn, loginName))
    (hres : membershipResolve lower R client loginName w = (.ok (some r), w1)) :
    resourceTailnetMembershipRead lower R client d w =
      ⟨none, { Id := d.Id, login_name := loginName, role := r.Role,
               downgrade_on_destroy := d.downgrade_on_destroy,
               suspended := decide (r.State = membershipStateDisabled),
               state := r.State, invite_id := r.InviteID,
               user_id := if r.InviteID ≠ "" then "" else r.UserID }, w1⟩ := by
  unfold resourceTailnetMembershipRead
  simp only [hid, hres]
  by_cases hi : r.InviteID = "" <;> by_cases hs : r.State = membershipStateDisabled <;>
    simp [hi, hs]

/-- Reading issues no Gateway write. -/
theorem read_writes (lower : Char → Char) (R : Remote σ) (client : Client)
    (d : ResourceData) (w : World σ) :
    writes (resourceTailnetMembershipRead lower R client d w).w.calls = writes w.calls := by
  unfold resourceTailnetMembershipRead
  cases hid : parseMembershipID d.Id with
  | error e => rfl
  | ok pr =>
    obtain ⟨tn, loginName⟩ := pr
    simp only
    have hw := membershipResolve_writes lower R client loginName w
    rcases hres : membershipResolve lower R client loginName w with ⟨res, w1⟩
    rw [hres] at hw
    cases res with
    | error e => exact hw
    | ok o =>
      cases o with
      | none => exact hw
      | some r => exact hw

/-- A predicate on calls that holds for neither listing cannot tell the log
after `membershipResolve` from the log before it. -/
theorem membershipResolve_filter (p : Call → Bool) (hp1 : p Call.usersList = false)
    (hp2 : ∀ t, p (Call.listUserInvites t) = false) (lower : Char → Char) (R : Remote σ)
    (client : Client) (loginName : String) (w : World σ) :
    (membershipResolve lower R client loginName w).2.calls.filter p = w.calls.filter p := by
  rcases membershipResolve_calls lower R client loginName w with h | h | h <;>
    rw [h] <;> simp [hp1, hp2]

/-- The same for `resourceTailnetMembershipRead`. -/
theorem read_filter (p : Call → Bool) (hp1 : p Call.usersList = false)
    (hp2 : ∀ t, p (Call.listUserInvites t) = false) (lower : Char → Char) (R : Remote σ)
    (client : Client) (d : ResourceData) (w : World σ) :
    (resourceTailnetMembershipRead lower R client d w).w.calls.filter p = w.calls.filter p := by
  unfold resourceTailnetMembershipRead
  cases hid : parseMembershipID d.Id with
  | error e => rfl
  | ok pr =>
    obtain ⟨tn, loginName⟩ := pr
    simp only
    have hw := membershipResolve_filter p hp1 hp2 lower R client loginName w
    rcases hres : membershipResolve lower R client loginName w with ⟨res, w1⟩
    rw [hres] at hw
    cases res with
    | error e => exact hw
    | ok o =>
      cases o with
      | none => exact hw
      | some r => exact hw

/-! ## Lemmas on Update -/

/-- The Gateway writes of the update path on a resolved user with a non-empty
id: the role call if the roles differ, then, unless that call failed, the
suspension call that the desired flag and the observed state ask for. -/
theorem update_user_writes (lower : Char → Char) (R : Remote σ) (client : Client)
    (d : ResourceData) (w w1 : World σ) (tn identity : String) (r : membershipResolveResult)
    (hid : parseMembershipID d.Id = .ok (tn, identity))
    (hres : membershipResolve lower R client identity w = (.ok (some r), w1))
    (hstate : r.State ≠ membershipStatePending) (hidne : r.UserID ≠ "") :
    writes (resourceTailnetMembershipUpdate lower R client d w).w.calls =
      writes w.calls ++
      (if r.Role ≠ d.role then [Call.updateUserRole r.UserID d.role] else []) ++
      (if r.Role = d.role ∨ (updateUserRole R r.UserID d.role w1).1 = none then
        (if d.suspended = true ∧ r.State ≠ membershipStateDisabled then
          [Call.suspendUser r.UserID]
         else if d.suspended = false ∧ r.State = membershipStateDisabled then
          [Call.restoreUser r.UserID]
         else [])
       else []) := by
  have hw1 : writes w1.calls = writes w.calls := by
    have := membershipResolve_writes lower R client identity w
    rw [hres] at this; exact this
  -- the suspension step, from any world `w2`
  have susp : ∀ w2 : World σ,
      writes (if d.suspended = true ∧ ¬ (decide (r.State = membershipStateDisabled)) = true then
          match suspendUser R r.UserID w2 with
          | (some err, w3) =>
            (⟨some (diagnosticsError err
              "Failed to suspend user; ensure you are not the last admin or account owner"),
              d, w3⟩ : Outcome σ)
          | (none, w3) => resourceTailnetMembershipRead lower R client d w3
        else if ¬ d.suspended = true ∧ (decide (r.State = membershipStateDisabled)) = true then
          match restoreUser R r.UserID w2 with
          | (some err, w3) => ⟨some (diagnosticsError err "Failed to restore user"), d, w3⟩
          | (none, w3) => resourceTailnetMembershipRead lower R client d w3
        else resourceTailnetMembershipRead lower R client d w2).w.calls =
      writes w2.calls ++
        (if d.suspended = true ∧ r.State ≠ membershipStateDisabled then
          [Call.suspendUser r.UserID]
         else if d.suspended = false ∧ r.State = membershipStateDisabled then
          [Call.restoreUser r.UserID]
         else []) := by
    intro w2
    cases hs : d.suspended <;> by_cases hd : r.State = membershipStateDisabled
    · simp only [hd, decide_True, Bool.false_eq_true, false_and, if_false, not_false_eq_true,
        and_self, if_true, ne_eq, not_true_eq_false, and_false]
      have hc := restoreUser_calls R r.UserID w2
      rcases hsu : restoreUser R r.UserID w2 with ⟨e, w3⟩
      rw [hsu] at hc
      simp only at hc
      cases e with
      | some err => simp [writes, hc, Call.isWrite]
      | none =>
        simp only
        rw [read_writes]
        simp [writes, hc, Call.isWrite]
    · simp only [hd, decide_False, Bool.false_eq_true, false_and, if_false, and_false, ne_eq,
        List.append_nil]
      exact read_writes lower R client d w2
    · simp only [hd, decide_True, not_true_eq_false, and_false, if_false, ne_eq,
        Bool.true_eq_false, false_and, List.append_nil, and_true]
      exact read_writes lower R client d w2
    · simp only [hd, decide_False, Bool.false_eq_true, not_false_eq_true, and_self, if_true,
        ne_eq]
      have hc := suspendUser_calls R r.UserID w2
      rcases hsu : suspendUser R r.UserID w2 with ⟨e, w3⟩
      rw [hsu] at hc
      simp only at hc
      cases e with
      | some err => simp [writes, hc, Call.isWrite]
      | none =>
        simp only
        rw [read_writes]
        simp [writes, hc, Call.isWrite]
  unfold resourceTailnetMembershipUpdate
  simp only [hid, hres, hstate, if_false, hidne, ne_eq, not_false_eq_true, if_true]
  by_cases hrole : r.Role = d.role
  · simp only [hrole, not_true_eq_false, if_false, true_or, if_true, List.append_nil]
    rw [susp w1, hw1]
  · simp only [hrole, not_false_eq_true, if_true, false_or]
    have hc := updateUserRole_calls R r.UserID d.role w1
    rcases hur : updateUserRole R r.UserID d.role w1 with ⟨e, w2⟩
    rw [hur] at hc
    simp only at hc
    cases e with
    | some err =>
      simp only [reduceCtorEq, if_false, List.append_nil]
      simp [writes, hc, Call.isWrite] at hw1 ⊢
      exact hw1
    | none =>
      simp only [if_true]
      rw [susp w2]
      have : writes w2.calls = writes w.calls ++ [Call.updateUserRole r.UserID d.role] := by
        rw [← hw1]
        simp [writes, hc, Call.isWrite]
      rw [this]

theorem filter_isSetRole_writes (l : List Call) :
    (writes l).filter Call.isSetRole = l.filter Call.isSetRole := by
  unfold writes
  rw [List.filter_filter]
  congr 1
  funext c
  cases c <;> rfl

theorem filter_isSuspension_writes (l : List Call) :
    (writes l).filter Call.isSuspension = l.filter Call.isSuspension := by
  unfold writes
  rw [List.filter_filter]
  congr 1
  funext c
  cases c <;> rfl

/-- The update path on a pending membership or on a user without id is Read. -/
theorem update_of_pending (lower : Char → Char) (R : Remote σ) (client : Client)
    (d : ResourceData) (w w1 : World σ) (tn identity : String) (r : membershipResolveResult)
    (hid : parseMembershipID d.Id = .ok (tn, identity))
    (hres : membershipResolve lower R client identity w = (.ok (some r), w1))
    (hstate : r.State = membershipStatePending) :
    resourceTailnetMembershipUpdate lower R client d w =
      resourceTailnetMembershipRead lower R client d w1 := by
  unfold resourceTailnetMembershipUpdate
  simp only [hid, hres, hstate, if_true]

/-- The initial-apply path on an identity that resolves is Read on the new
identifier. -/
theorem create_of_resolved (lower : Char → Char) (R : Remote σ) (client : Client)
    (d : ResourceData) (w w1 : World σ) (r : membershipResolveResult)
    (hres : membershipResolve lower R client d.login_name w = (.ok (some r), w1)) :
    resourceTailnetMembershipCreate lower R client d w =
      resourceTailnetMembershipRead lower R client
        { d with
          Id := resourceTailnetMembershipID (if client.Tailnet = "" then "-" else client.Tailnet)
            d.login_name } w1 := by
  unfold resourceTailnetMembershipCreate
  simp only [hres]

/-! ## Lemmas on the directory model -/

theorem directory_usersList (dir : Directory) (calls : List Call) :
    usersList directory ⟨dir, calls⟩ = (.ok dir.users, ⟨dir, calls ++ [Call.usersList]⟩) := rfl

theorem directory_listUserInvites (client : Client) (dir : Directory) (calls : List Call) :
    listUserInvites directory client ⟨dir, calls⟩ =
      (.ok dir.invites, ⟨dir, calls ++ [Call.listUserInvites client.Tailnet]⟩) := rfl

theorem directory_createUserInvite (client : Client) (email role : String) (dir : Directory)
    (calls : List Call) :
    createUserInvite directory client email role ⟨dir, calls⟩ =
      (.ok ⟨"inv" ++ toString dir.invites.length, email, role⟩,
        ⟨⟨dir.invites ++ [⟨"inv" ++ toString dir.invites.length, email, role⟩], dir.users⟩,
          calls ++ [Call.createUserInvite client.Tailnet email role]⟩) := rfl

theorem directory_updateUserRole (id role : String) (dir : Directory) (calls : List Call) :
    updateUserRole directory id role ⟨dir, calls⟩ =
      (none, ⟨⟨dir.invites, Directory.setRole id role dir.users⟩,
        calls ++ [Call.updateUserRole id role]⟩) := rfl

theorem directory_suspendUser (id : String) (dir : Directory) (calls : List Call) :
    suspendUser directory id ⟨dir, calls⟩ =
      (none, ⟨⟨dir.invites, Directory.setStatus id UserStatusSuspended dir.users⟩,
        calls ++ [Call.suspendUser id]⟩) := rfl

theorem directory_restoreUser (id : String) (dir : Directory) (calls : List Call) :
    restoreUser directory id ⟨dir, calls⟩ =
      (none, ⟨⟨dir.invites, Directory.setStatus id "active" dir.users⟩,
        calls ++ [Call.restoreUser id]⟩) := rfl

/-- On the directory model both listings succeed, so Resolve is the two
scans. -/
theorem directory_resolve (lower : Char → Char) (client : Client) (identity : String)
    (dir : Directory) (calls : List Call) (hne : normalize lower identity ≠ "") :
    membershipResolve lower directory client identity ⟨dir, calls⟩ =
      (.ok ((matchInvite lower (normalize lower identity) dir.invites).orElse
        (fun _ => matchUser lower (normalize lower identity) dir.users)),
        ⟨dir, calls ++ [Call.usersList, Call.listUserInvites client.Tailnet]⟩) := by
  rw [membershipResolve_of_lists lower directory client identity _ _ _ dir.users dir.invites hne
    (directory_usersList dir calls) (directory_listUserInvites client dir _)]
  simp

/-- The user scan returns the result of the first user whose normalized login
name equals `n`. -/
theorem matchUser_eq_find (lower : Char → Char) (n : String) (users : List User) :
    matchUser lower n users =
      (users.find? (fun v => decide (normalize lower v.LoginName = n))).map userResult := by
  induction users with
  | nil => rfl
  | cons v rest ih =>
    unfold matchUser
    by_cases hv : normalize lower v.LoginName = n
    · simp [hv, List.find?_cons, userResult]
    · simp [hv, List.find?_cons, ih]

/-- Rewriting user records without touching their login names rewrites the
first match. -/
theorem find_map_users (lower : Char → Char) (n : String) (f : User → User)
    (hf : ∀ v, (f v).LoginName = v.LoginName) (users : List User) :
    (users.map f).find? (fun v => decide (normalize lower v.LoginName = n)) =
      (users.find? (fun v => decide (normalize lower v.LoginName = n))).map f := by
  induction users with
  | nil => rfl
  | cons v rest ih =>
    by_cases hv : normalize lower v.LoginName = n
    · simp [List.find?_cons, hf, hv]
    · simp only [List.map_cons, List.find?_cons, hf, hv, decide_False]
      exact ih

theorem find_setRole (lower : Char → Char) (n id role : String) (users : List User) (u : User)
    (h : users.find? (fun v => decide (normalize lower v.LoginName = n)) = some u)
    (hid : u.ID = id) :
    (Directory.setRole id role users).find?
      (fun v => decide (normalize lower v.LoginName = n)) = some { u with Role := role } := by
  unfold Directory.setRole
  rw [find_map_users lower n _ (fun v => by split <;> rfl) users, h]
  simp [hid]

theorem find_setStatus (lower : Char → Char) (n id status : String) (users : List User)
    (u : User)
    (h : users.find? (fun v => decide (normalize lower v.LoginName = n)) = some u)
    (hid : u.ID = id) :
    (Directory.setStatus id status users).find?
      (fun v => decide (normalize lower v.LoginName = n)) = some { u with Status := status } := by
  unfold Directory.setStatus
  rw [find_map_users lower n _ (fun v => by split <;> rfl) users, h]
  simp [hid]

/-- Resolve on the directory model when no invitation matches and `u` is the
first matching user. -/
theorem directory_resolve_user (lower : Char → Char) (client : Client) (identity : String)
    (dir : Directory) (calls : List Call) (u : User)
    (hne : normalize lower identity ≠ "")
    (hmi : matchInvite lower (normalize lower identity) dir.invites = none)
    (hfind : dir.users.find?
      (fun v => decide (normalize lower v.LoginName = normalize lower identity)) = some u) :
    membershipResolve lower directory client identity ⟨dir, calls⟩ =
      (.ok (some (userResult u)),
        ⟨dir, calls ++ [Call.usersList, Call.listUserInvites client.Tailnet]⟩) := by
  rw [directory_resolve lower client identity dir calls hne, hmi, matchUser_eq_find, hfind]
  rfl

/-- The converse: a result of Resolve on the directory model that carries the
user record `u`. -/
theorem directory_resolve_user_inv (lower : Char → Char) (client : Client)
    (identity : String) (dir : Directory) (calls : List Call) (w1 : World Directory)
    (r : membershipResolveResult) (u : User)
    (hres : membershipResolve lower directory client identity ⟨dir, calls⟩ = (.ok (some r), w1))
    (hu : r.User = some u) :
    normalize lower identity ≠ "" ∧
    matchInvite lower (normalize lower identity) dir.invites = none ∧
    dir.users.find?
      (fun v => decide (normalize lower v.LoginName = normalize lower identity)) = some u := by
  obtain ⟨hne, _, _, _, _, _, _⟩ := membershipResolve_ok lower directory client identity _ w1 _ hres
  refine ⟨hne, ?_⟩
  rw [directory_resolve lower client identity dir calls hne] at hres
  simp only [Prod.mk.injEq, Except.ok.injEq] at hres
  have hres := hres.1
  cases hmi : matchInvite lower (normalize lower identity) dir.invites with
  | some r' =>
    rw [hmi] at hres
    simp only [Option.orElse, Option.some.injEq] at hres
    obtain ⟨_, inv, _, _, _, _, hr⟩ := matchInvite_eq_some lower _ dir.invites r' hmi
    rw [← hres, hr] at hu
    simp [pendingResult] at hu
  | none =>
    refine ⟨rfl, ?_⟩
    rw [hmi, matchUser_eq_find] at hres
    simp only [Option.orElse] at hres
    cases hf : dir.users.find?
        (fun v => decide (normalize lower v.LoginName = normalize lower identity)) with
    | none => rw [hf] at hres; simp at hres
    | some u' =>
      rw [hf] at hres
      simp only [Option.map_some', Option.some.injEq] at hres
      rw [← hres] at hu
      simp only [userResult, Option.some.injEq] at hu
      rw [hu]

/-- Resolve leaves the directory model as it is. -/
theorem directory_resolve_remote (lower : Char → Char) (client : Client) (identity : String)
    (w : World Directory) :
    (membershipResolve lower directory client identity w).2.remote = w.remote := by
  by_cases hne : normalize lower identity = ""
  · simp [membershipResolve, hne]
  · rw [directory_resolve lower client identity w.remote w.calls hne]

/-- Read leaves the directory model as it is. -/
theorem directory_read_remote (lower : Char → Char) (client : Client) (d : ResourceData)
    (w : World Directory) :
    (resourceTailnetMembershipRead lower directory client d w).w.remote = w.remote := by
  unfold resourceTailnetMembershipRead
  cases hid : parseMembershipID d.Id with
  | error e => rfl
  | ok pr =>
    obtain ⟨tn, loginName⟩ := pr
    simp only
    have hw := directory_resolve_remote lower client loginName w
    rcases hres : membershipResolve lower directory client loginName w with ⟨res, w1⟩
    rw [hres] at hw
    cases res with
    | error e => exact hw
    | ok o =>
      cases o with
      | none => exact hw
      | some r => exact hw

/-- The update path on a resolved user with a non-empty id, as the sequence of
its two steps followed by Read. -/
theorem update_user_eq (lower : Char → Char) (R : Remote σ) (client : Client)
    (d : ResourceData) (w w1 : World σ) (tn identity : String) (r : membershipResolveResult)
    (hid : parseMembershipID d.Id = .ok (tn, identity))
    (hres : membershipResolve lower R client identity w = (.ok (some r), w1))
    (hstate : r.State ≠ membershipStatePending) (hidne : r.UserID ≠ "") :
    resourceTailnetMembershipUpdate lower R client d w =
      match updateRoleStep R r d.role w1 with
      | (some err, w2) => ⟨some (diagnosticsError err "Failed to update user role"), d, w2⟩
      | (none, w2) =>
        match updateSuspensionStep R r d.suspended w2 with
        | (some dg, w3) => ⟨some dg, d, w3⟩
        | (none, w3) => resourceTailnetMembershipRead lower R client d w3 := by
  unfold resourceTailnetMembershipUpdate updateRoleStep
  simp only [hid, hres, hstate, if_false, hidne, ne_eq, not_false_eq_true, if_true]
  rcases hrs : (if ¬ r.Role = d.role then updateUserRole R r.UserID d.role w1 else (none, w1))
    with ⟨e, w2⟩
  cases e with
  | some err => rfl
  | none =>
    simp only
    unfold updateSuspensionStep
    simp only
    split
    · rcases hsu : suspendUser R r.UserID w2 with ⟨e', w3⟩
      cases e' <;> rfl
    · split
      · rcases hsu : restoreUser R r.UserID w2 with ⟨e', w3⟩
        cases e' <;> rfl
      · rfl

/-- Read on the directory model when no invitation matches and `u` is the first
matching user. -/
theorem directory_read_user (lower : Char → Char) (client : Client) (d : ResourceData)
    (tn identity : String) (dir : Directory) (calls : List Call) (u : User)
    (hid : parseMembershipID d.Id = .ok (tn, identity))
    (hne : normalize lower identity ≠ "")
    (hmi : matchInvite lower (normalize lower identity) dir.invites = none)
    (hfind : dir.users.find?
      (fun v => decide (normalize lower v.LoginName = normalize lower identity)) = some u) :
    resourceTailnetMembershipRead lower directory client d ⟨dir, calls⟩ =
      ⟨none, { Id := d.Id, login_name := identity, role := u.Role,
               downgrade_on_destroy := d.downgrade_on_destroy,
               suspended := decide (u.Status = UserStatusSuspended),
               state := (userResult u).State, invite_id := "", user_id := u.ID },
        ⟨dir, calls ++ [Call.usersList, Call.listUserInvites client.Tailnet]⟩⟩ := by
  rw [read_of_resolved lower directory client d _ _ tn identity (userResult u) hid
    (directory_resolve_user lower client identity dir calls u hne hmi hfind)]
  by_cases hs : u.Status = UserStatusSuspended
  · simp [userResult, hs]
  · have : ¬ membershipStateActive = membershipStateDisabled := by decide
    simp [userResult, hs, this]

/-- The update path on the directory model for an active user and a desired
suspension: the user ends suspended with the desired role, and `suspendUser` is
the one suspension call. -/
theorem directory_update_suspend (lower : Char → Char) (client : Client) (d : ResourceData)
    (tn identity : String) (dir : Directory) (u : User)
    (hid : parseMembershipID d.Id = .ok (tn, identity))
    (hne : normalize lower identity ≠ "")
    (hmi : matchInvite lower (normalize lower identity) dir.invites = none)
    (hfind : dir.users.find?
      (fun v => decide (normalize lower v.LoginName = normalize lower identity)) = some u)
    (hidne : u.ID ≠ "") (hs : d.suspended = true) (hact : u.Status ≠ UserStatusSuspended) :
    ∃ users' calls',
      resourceTailnetMembershipUpdate lower directory client d ⟨dir, []⟩ =
        ⟨none, { Id := d.Id, login_name := identity, role := d.role,
                 downgrade_on_destroy := d.downgrade_on_destroy, suspended := true,
                 state := membershipStateDisabled, invite_id := "", user_id := u.ID },
          ⟨⟨dir.invites, users'⟩, calls'⟩⟩ ∧
      users'.find? (fun v => decide (normalize lower v.LoginName = normalize lower identity)) =
        some { u with Role := d.role, Status := UserStatusSuspended } ∧
      calls'.filter Call.isSuspension = [Call.suspendUser u.ID] ∧
      calls'.filter Call.isSetRole =
        if u.Role ≠ d.role then [Call.updateUserRole u.ID d.role] else [] := by
  have hres := directory_resolve_user lower client identity dir [] u hne hmi hfind
  have hst : ¬ (userResult u).State = membershipStateDisabled := by
    have : ¬ membershipStateActive = membershipStateDisabled := by decide
    simp [userResult, hact, this]
  rw [update_user_eq lower directory client d _ _ tn identity (userResult u) hid hres
    (userResult_state_ne_pending u) hidne]
  by_cases hrole : u.Role = d.role
  · have h1 : ∀ w, updateRoleStep directory (userResult u) d.role w = (none, w) := by
      intro w; simp [updateRoleStep, userResult, hrole]
    have h2 : ∀ dir2 c2, updateSuspensionStep directory (userResult u) d.suspended ⟨dir2, c2⟩ =
        (none, ⟨⟨dir2.invites, Directory.setStatus u.ID UserStatusSuspended dir2.users⟩,
          c2 ++ [Call.suspendUser u.ID]⟩) := by
      intro dir2 c2
      simp only [updateSuspensionStep, hs, hst, decide_False, Bool.false_eq_true,
        not_false_eq_true, and_self, if_true]
      rfl
    have hf := find_setStatus lower _ u.ID UserStatusSuspended dir.users u hfind rfl
    simp only [h1, h2]
    rw [directory_read_user lower client d tn identity
      ⟨dir.invites, Directory.setStatus u.ID UserStatusSuspended dir.users⟩ _ _ hid hne hmi hf]
    refine ⟨Directory.setStatus u.ID UserStatusSuspended dir.users,
      [] ++ [Call.usersList, Call.listUserInvites client.Tailnet] ++ [Call.suspendUser u.ID] ++
        [Call.usersList, Call.listUserInvites client.Tailnet], ?_, ?_, ?_, ?_⟩
    · simp [userResult, hrole]
    · rw [hf, hrole]
    · simp [Call.isSuspension]
    · simp [Call.isSetRole, hrole]
  · have h1 : ∀ dir1 c1, updateRoleStep directory (userResult u) d.role ⟨dir1, c1⟩ =
        (none, ⟨⟨dir1.invites, Directory.setRole u.ID d.role dir1.users⟩,
          c1 ++ [Call.updateUserRole u.ID d.role]⟩) := by
      intro dir1 c1
      simp only [updateRoleStep, userResult, ne_eq, hrole, not_false_eq_true, if_true]
      rfl
    have h2 : ∀ dir2 c2, updateSuspensionStep directory (userResult u) d.suspended ⟨dir2, c2⟩ =
        (none, ⟨⟨dir2.invites, Directory.setStatus u.ID UserStatusSuspended dir2.users⟩,
          c2 ++ [Call.suspendUser u.ID]⟩) := by
      intro dir2 c2
      simp only [updateSuspensionStep, hs, hst, decide_False, Bool.false_eq_true,
        not_false_eq_true, and_self, if_true]
      rfl
    have hf1 := find_setRole lower _ u.ID d.role dir.users u hfind rfl
    have hf := find_setStatus lower _ u.ID UserStatusSuspended _ _ hf1 rfl
    simp only [h1, h2]
    rw [directory_read_user lower client d tn identity
      ⟨dir.invites, Directory.setStatus u.ID UserStatusSuspended
        (Directory.setRole u.ID d.role dir.users)⟩ _ _ hid hne hmi hf]
    refine ⟨Directory.setStatus u.ID UserStatusSuspended (Directory.setRole u.ID d.role dir.users),
      [] ++ [Call.usersList, Call.listUserInvites client.Tailnet] ++
        [Call.updateUserRole u.ID d.role] ++ [Call.suspendUser u.ID] ++
        [Call.usersList, Call.listUserInvites client.Tailnet], ?_, ?_, ?_, ?_⟩
    · simp [userResult]
    · rw [hf]
    · simp [Call.isSuspension]
    · simp [Call.isSetRole, hrole]

/-- The update path on the directory model for a suspended user and no desired
suspension: the user ends active with the desired role, and `restoreUser` is
the one suspension call. -/
theorem directory_update_restore (lower : Char → Char) (client : Client) (d : ResourceData)
    (tn identity : String) (dir : Directory) (u : User)
    (hid : parseMembershipID d.Id = .ok (tn, identity))
    (hne : normalize lower identity ≠ "")
    (hmi : matchInvite lower (normalize lower identity) dir.invites = none)
    (hfind : dir.users.find?
      (fun v => decide (normalize lower v.LoginName = normalize lower identity)) = some u)
    (hidne : u.ID ≠ "") (hs : d.suspended = false) (hsus : u.Status = UserStatusSuspended) :
    ∃ users' calls',
      resourceTailnetMembershipUpdate lower directory client d ⟨dir, []⟩ =
        ⟨none, { Id := d.Id, login_name := identity, role := d.role,
                 downgrade_on_destroy := d.downgrade_on_destroy, suspended := false,
                 state := membershipStateActive, invite_id := "", user_id := u.ID },
          ⟨⟨dir.invites, users'⟩, calls'⟩⟩ ∧
      users'.find? (fun v => decide (normalize lower v.LoginName = normalize lower identity)) =
        some { u with Role := d.role, Status := "active" } ∧
      calls'.filter Call.isSuspension = [Call.restoreUser u.ID] ∧
      calls'.filter Call.isSetRole =
        if u.Role ≠ d.role then [Call.updateUserRole u.ID d.role] else [] := by
  have hres := directory_resolve_user lower client identity dir [] u hne hmi hfind
  have hst : (userResult u).State = membershipStateDisabled := by
    simp [userResult, hsus]
  have hact : ¬ ("active" : String) = UserStatusSuspended := by decide
  rw [update_user_eq lower directory client d _ _ tn identity (userResult u) hid hres
    (userResult_state_ne_pending u) hidne]
  have h2 : ∀ dir2 c2, updateSuspensionStep directory (userResult u) d.suspended ⟨dir2, c2⟩ =
      (none, ⟨⟨dir2.invites, Directory.setStatus u.ID "active" dir2.users⟩,
        c2 ++ [Call.restoreUser u.ID]⟩) := by
    intro dir2 c2
    simp only [updateSuspensionStep, hs, hst, decide_True, Bool.false_eq_true, false_and,
      if_false, not_false_eq_true, and_self, if_true]
    rfl
  by_cases hrole : u.Role = d.role
  · have h1 : ∀ w, updateRoleStep directory (userResult u) d.role w = (none, w) := by
      intro w; simp [updateRoleStep, userResult, hrole]
    have hf := find_setStatus lower _ u.ID "active" dir.users u hfind rfl
    simp only [h1, h2]
    rw [directory_read_user lower client d tn identity
      ⟨dir.invites, Directory.setStatus u.ID "active" dir.users⟩ _ _ hid hne hmi hf]
    refine ⟨Directory.setStatus u.ID "active" dir.users,
      [] ++ [Call.usersList, Call.listUserInvites client.Tailnet] ++ [Call.restoreUser u.ID] ++
        [Call.usersList, Call.listUserInvites client.Tailnet], ?_, ?_, ?_, ?_⟩
    · simp [userResult, hrole, hact]
    · rw [hf, hrole]
    · simp [Call.isSuspension]
    · simp [Call.isSetRole, hrole]
  · have h1 : ∀ dir1 c1, updateRoleStep directory (userResult u) d.role ⟨dir1, c1⟩ =
        (none, ⟨⟨dir1.invites, Directory.setRole u.ID d.role dir1.users⟩,
          c1 ++ [Call.updateUserRole u.ID d.role]⟩) := by
      intro dir1 c1
      simp only [updateRoleStep, userResult, ne_eq, hrole, not_false_eq_true, if_true]
      rfl
    have hf1 := find_setRole lower _ u.ID d.role dir.users u hfind rfl
    have hf := find_setStatus lower _ u.ID "active" _ _ hf1 rfl
    simp only [h1, h2]
    rw [directory_read_user lower client d tn identity
      ⟨dir.invites, Directory.setStatus u.ID "active"
        (Directory.setRole u.ID d.role dir.users)⟩ _ _ hid hne hmi hf]
    refine ⟨Directory.setStatus u.ID "active" (Directory.setRole u.ID d.role dir.users),
      [] ++ [Call.usersList, Call.listUserInvites client.Tailnet] ++
        [Call.updateUserRole u.ID d.role] ++ [Call.restoreUser u.ID] ++
        [Call.usersList, Call.listUserInvites client.Tailnet], ?_, ?_, ?_, ?_⟩
    · simp [userResult, hact]
    · rw [hf]
    · simp [Call.isSuspension]
    · simp [Call.isSetRole, hrole]

/-! ## Lemmas on identifiers -/

theorem takeWhile_sep (a b : List Char) (h : ':' ∉ a) :
    (a ++ ':' :: b).takeWhile (fun c => decide (c ≠ ':')) = a := by
  induction a with
  | nil => rfl
  | cons c rest ih =>
    have hc : decide (c ≠ ':') = true := decide_eq_true (fun e => h (by simp [e]))
    have hrest : ':' ∉ rest := fun e => h (List.mem_cons_of_mem _ e)
    simp only [List.cons_append, List.takeWhile_cons, hc, if_true, ih hrest]

theorem dropWhile_sep (a b : List Char) (h : ':' ∉ a) :
    (a ++ ':' :: b).dropWhile (fun c => decide (c ≠ ':')) = ':' :: b := by
  induction a with
  | nil => rfl
  | cons c rest ih =>
    have hc : decide (c ≠ ':') = true := decide_eq_true (fun e => h (by simp [e]))
    have hrest : ':' ∉ rest := fun e => h (List.mem_cons_of_mem _ e)
    simp only [List.cons_append, List.dropWhile_cons, hc, if_true, ih hrest]

theorem dropWhile_sep_absent (a : List Char) (h : ':' ∉ a) :
    a.dropWhile (fun c => decide (c ≠ ':')) = [] := by
  induction a with
  | nil => rfl
  | cons c rest ih =>
    have hc : decide (c ≠ ':') = true := decide_eq_true (fun e => h (by simp [e]))
    have hrest : ':' ∉ rest := fun e => h (List.mem_cons_of_mem _ e)
    simp only [List.dropWhile_cons, hc, if_true, ih hrest]

/-- The two views of `parseMembershipID` agree. -/
theorem parseMembershipID_values (id : String) :
    parseMembershipID id =
      match parseMembershipIDValues id with
      | (_, _, some err) => .error err
      | (tailnet, loginName, none) => .ok (tailnet, loginName) := by
  unfold parseMembershipID parseMembershipIDValues
  simp only
  split <;> rfl

/-- An identifier is parsed at its first separator. -/
theorem parseMembershipID_split (id : String) (a b : List Char) (hid : id.data = a ++ ':' :: b)
    (ha : ':' ∉ a) (hane : a ≠ []) (hbne : b ≠ []) :
    parseMembershipID id = .ok (⟨a⟩, ⟨b⟩) := by
  unfold parseMembershipID
  simp only [hid, takeWhile_sep a b ha, dropWhile_sep a b ha, List.drop_one, List.tail_cons,
    hane, hbne, or_self, if_false]

/-- An identifier is rejected when no separator occurs, when the separator
comes first and when nothing follows the first separator. -/
theorem parseMembershipID_reject (id : String)
    (h : ':' ∉ id.data ∨ (∃ b, id.data = ':' :: b) ∨ (∃ a, id.data = a ++ [':'] ∧ ':' ∉ a)) :
    parseMembershipIDValues id =
      ("", "", some ("invalid membership id \"" ++ id ++ "\" (expected tailnet:login_name)")) := by
  unfold parseMembershipIDValues
  simp only
  rcases h with h | ⟨b, hb⟩ | ⟨a, ha, hna⟩
  · simp only [dropWhile_sep_absent id.data h, List.drop_nil, or_true, if_true]
  · have : id.data.takeWhile (fun c => decide (c ≠ ':')) = [] := by rw [hb]; rfl
    simp only [this, true_or, if_true]
  · have : (id.data.dropWhile (fun c => decide (c ≠ ':'))).drop 1 = [] := by
      rw [ha, dropWhile_sep a [] hna]; rfl
    simp only [this, or_true, if_true]

/-- A list of code points has no separator or splits at its first one. -/
theorem split_at_sep (l : List Char) :
    ':' ∉ l ∨ ∃ a b, l = a ++ ':' :: b ∧ ':' ∉ a := by
  induction l with
  | nil => exact Or.inl (by simp)
  | cons c rest ih =>
    by_cases hc : c = ':'
    · exact Or.inr ⟨[], rest, by simp [hc], by simp⟩
    · rcases ih with h | ⟨a, b, hab, ha⟩
      · refine Or.inl ?_
        intro hmem
        rcases List.mem_cons.mp hmem with e | e
        · exact hc e.symm
        · exact h e
      · refine Or.inr ⟨c :: a, b, by simp [hab], ?_⟩
        intro hmem
        rcases List.mem_cons.mp hmem with e | e
        · exact hc e.symm
        · exact ha e

/-- An identifier is accepted only if a separator occurs, does not come first
and is followed by something. -/
theorem parseMembershipID_error (id : String) (err : String)
    (h : parseMembershipID id = .error err) :
    ':' ∉ id.data ∨ (∃ b, id.data = ':' :: b) ∨ (∃ a, id.data = a ++ [':'] ∧ ':' ∉ a) := by
  rcases split_at_sep id.data with hno | ⟨a, b, hab, ha⟩
  · exact Or.inl hno
  · by_cases hane : a = []
    · exact Or.inr (Or.inl ⟨b, by simp [hab, hane]⟩)
    · by_cases hbne : b = []
      · exact Or.inr (Or.inr ⟨a, by simp [hab, hbne], ha⟩)
      · rw [parseMembershipID_split id a b hab ha hane hbne] at h
        cases h

/-- The identifier built from a scope and a login name, as code points. -/
theorem resourceTailnetMembershipID_data (t l : String) :
    (resourceTailnetMembershipID t l).data = t.data ++ ':' :: l.data := by
  unfold resourceTailnetMembershipID
  simp [String.data_append]

/-- Read keeps the identifier or clears it. -/
theorem read_id (lower : Char → Char) (R : Remote σ) (client : Client) (d : ResourceData)
    (w : World σ) :
    (resourceTailnetMembershipRead lower R client d w).d.Id = d.Id ∨
    (resourceTailnetMembershipRead lower R client d w).d.Id = "" := by
  unfold resourceTailnetMembershipRead
  cases hid : parseMembershipID d.Id with
  | error e => exact Or.inl rfl
  | ok pr =>
    obtain ⟨tn, loginName⟩ := pr
    simp only
    rcases hres : membershipResolve lower R client loginName w with ⟨res, w1⟩
    cases res with
    | error e => exact Or.inl rfl
    | ok o =>
      cases o with
      | none => exact Or.inr rfl
      | some r =>
        simp only
        refine Or.inl ?_
        split <;> split <;> rfl

/-! ## Lemmas on Release -/

/-- Release on a resolved user with a non-empty id and the downgrade policy:
the role call and the suspend call, whatever they return. -/
theorem delete_downgrade_eq (lower : Char → Char) (R : Remote σ) (client : Client)
    (d : ResourceData) (w w1 : World σ) (tn identity : String) (r : membershipResolveResult)
    (hid : parseMembershipID d.Id = .ok (tn, identity))
    (hres : membershipResolve lower R client identity w = (.ok (some r), w1))
    (hstate : r.State ≠ membershipStatePending) (hidne : r.UserID ≠ "")
    (hdg : d.downgrade_on_destroy = true) :
    resourceTailnetMembershipDelete lower R client d w =
      ⟨none, d, (suspendUser R r.UserID (updateUserRole R r.UserID "member" w1).2).2⟩ := by
  unfold resourceTailnetMembershipDelete
  simp only [hid, hres, hstate, if_false, hidne, ne_eq, not_false_eq_true, if_true, hdg]

/-- Release on a resolved user with a non-empty id and the remove policy: the
one `deleteUser` call, whose error is returned. -/
theorem delete_remove_eq (lower : Char → Char) (R : Remote σ) (client : Client)
    (d : ResourceData) (w w1 : World σ) (tn identity : String) (r : membershipResolveResult)
    (hid : parseMembershipID d.Id = .ok (tn, identity))
    (hres : membershipResolve lower R client identity w = (.ok (some r), w1))
    (hstate : r.State ≠ membershipStatePending) (hidne : r.UserID ≠ "")
    (hdg : d.downgrade_on_destroy = false) :
    resourceTailnetMembershipDelete lower R client d w =
      ⟨(deleteUser R r.UserID w1).1.map (fun err => diagnosticsError err
          "Failed to delete user; ensure you are not the last admin or account owner"),
        d, (deleteUser R r.UserID w1).2⟩ := by
  unfold resourceTailnetMembershipDelete
  simp only [hid, hres, hstate, if_false, hidne, ne_eq, not_false_eq_true, if_true, hdg,
    Bool.false_eq_true]
  rcases deleteUser R r.UserID w1 with ⟨e, w2⟩
  cases e <;> rfl

/-- Release on a pending membership: the one `deleteUserInvite` call, whose
error is returned. -/
theorem delete_pending_eq (lower : Char → Char) (R : Remote σ) (client : Client)
    (d : ResourceData) (w w1 : World σ) (tn identity : String) (r : membershipResolveResult)
    (hid : parseMembershipID d.Id = .ok (tn, identity))
    (hres : membershipResolve lower R client identity w = (.ok (some r), w1))
    (hstate : r.State = membershipStatePending) :
    resourceTailnetMembershipDelete lower R client d w =
      ⟨(deleteUserInvite R r.InviteID w1).1.map (fun err => diagnosticsError err
          "Failed to delete user invite"),
        d, (deleteUserInvite R r.InviteID w1).2⟩ := by
  unfold resourceTailnetMembershipDelete
  simp only [hid, hres, hstate, if_true]
  rcases deleteUserInvite R r.InviteID w1 with ⟨e, w2⟩
  cases e <;> rfl

/-! ## Lemmas on errors -/

/-- The status check on a response: success exactly for the codes 200 and
404. -/
theorem checkStatus_ok (op : String) (resp : Response) (w1 : World σ) :
    checkStatus op (.ok resp, w1) =
      (if resp.StatusCode = 200 ∨ resp.StatusCode = 404 then none
       else some (statusError op resp), w1) := by
  unfold checkStatus StatusOK StatusNotFound
  simp only
  by_cases h1 : resp.StatusCode = 200
  · simp [h1]
  · by_cases h2 : resp.StatusCode = 404
    · simp [h2]
    · simp [h1, h2]

/-- The status check on a failed round trip returns its error. -/
theorem checkStatus_error (op err : String) (w1 : World σ) :
    checkStatus op (.error err, w1) = (some err, w1) := rfl

/-- Resolve on an identity that is empty after normalization. -/
theorem membershipResolve_empty (lower : Char → Char) (R : Remote σ) (client : Client)
    (identity : String) (w : World σ) (h : normalize lower identity = "") :
    membershipResolve lower R client identity w =
      (.error (diagErrorf "login_name is empty"), w) := by
  unfold membershipResolve
  simp only [h, if_true]

/-- Resolve when the user listing fails. -/
theorem membershipResolve_users_error (lower : Char → Char) (R : Remote σ) (client : Client)
    (identity : String) (w w1 : World σ) (err : String)
    (hne : normalize lower identity ≠ "") (hu : usersList R w = (.error err, w1)) :
    membershipResolve lower R client identity w =
      (.error (diagnosticsError err "Failed to list users for membership resolve"), w1) := by
  unfold membershipResolve
  simp only [hne, if_false, hu]

/-- Resolve when the invite listing fails. -/
theorem membershipResolve_invites_error (lower : Char → Char) (R : Remote σ)
    (client : Client) (identity : String) (w w1 w2 : World σ) (users : List User)
    (err : String) (hne : normalize lower identity ≠ "")
    (hu : usersList R w = (.ok users, w1))
    (hi : listUserInvites R client w1 = (.error err, w2)) :
    membershipResolve lower R client identity w =
      (.error (diagnosticsError err "Failed to list user invites for membership resolve"),
        w2) := by
  unfold membershipResolve
  simp only [hne, if_false, hu, hi]

/-- The identifier determines the login name it was built from. -/
theorem resourceTailnetMembershipID_injective (t l₁ l₂ : String)
    (h : resourceTailnetMembershipID t l₁ = resourceTailnetMembershipID t l₂) : l₁ = l₂ := by
  have hd := congrArg String.data h
  rw [resourceTailnetMembershipID_data, resourceTailnetMembershipID_data] at hd
  have := List.append_cancel_left hd
  simp only [List.cons.injEq, true_and] at this
  exact String.ext this

/-! ## Lemmas on the stored identifier -/

/-- What Read leaves in the identifier: it is kept when the identifier does not
parse, when Resolve fails and when the identity resolves, and it is cleared when
Resolve finds nothing. -/
theorem read_id_cases (lower : Char → Char) (R : Remote σ) (client : Client)
    (d : ResourceData) (w : World σ) :
    (∀ err, parseMembershipID d.Id = .error err →
      (resourceTailnetMembershipRead lower R client d w).d.Id = d.Id) ∧
    (∀ (tn l : String) (res : Except Diagnostic (Option membershipResolveResult))
      (w2 : World σ), parseMembershipID d.Id = .ok (tn, l) →
      membershipResolve lower R client l w = (res, w2) →
      (resourceTailnetMembershipRead lower R client d w).d.Id =
        match res with
        | .ok none => ""
        | _ => d.Id) := by
  constructor
  · intro err hid
    unfold resourceTailnetMembershipRead
    simp only [hid]
  · intro tn l res w2 hid hres
    unfold resourceTailnetMembershipRead
    simp only [hid, hres]
    cases res with
    | error e => rfl
    | ok o =>
      cases o with
      | none => rfl
      | some r =>
        simp only
        split <;> split <;> rfl

/-- A login name with a non-empty normalized form is not empty. -/
theorem ne_empty_of_normalize (lower : Char → Char) (l : String)
    (h : normalize lower l ≠ "") : l ≠ "" := by
  intro hl
  subst hl
  exact h rfl

/-- The identifier that the initial-apply path builds parses back to the scope
and the login name when the tailnet of the client contains no separator. -/
theorem parse_created_id (client : Client) (l : String) (hsep : ':' ∉ client.Tailnet.data)
    (hl : l ≠ "") :
    parseMembershipID
        (resourceTailnetMembershipID (if client.Tailnet = "" then "-" else client.Tailnet) l) =
      .ok (if client.Tailnet = "" then "-" else client.Tailnet, l) := by
  have hld : l.data ≠ [] := fun h => hl (String.ext h)
  by_cases ht : client.Tailnet = ""
  · simp only [ht, if_true]
    exact parseMembershipID_split _ "-".data l.data (resourceTailnetMembershipID_data "-" l)
      (by decide) (by decide) hld
  · simp only [ht, if_false]
    exact parseMembershipID_split _ client.Tailnet.data l.data
      (resourceTailnetMembershipID_data client.Tailnet l) hsep
      (fun h => ht (String.ext h)) hld

/-- The initial-apply path does not read the identifier of the resource data:
its diagnostics and its calls are the same whatever the identifier holds. -/
theorem create_ignores_id (lower : Char → Char) (R : Remote σ) (client : Client)
    (d : ResourceData) (w : World σ) (id : String) :
    (resourceTailnetMembershipCreate lower R client { d with Id := id } w).diags =
      (resourceTailnetMembershipCreate lower R client d w).diags ∧
    (resourceTailnetMembershipCreate lower R client { d with Id := id } w).w =
      (resourceTailnetMembershipCreate lower R client d w).w := by
  unfold resourceTailnetMembershipCreate
  simp only
  rcases membershipResolve lower R client d.login_name w with ⟨res, w1⟩
  cases res with
  | error e => exact ⟨rfl, rfl⟩
  | ok o =>
    cases o with
    | some r => exact ⟨rfl, rfl⟩
    | none =>
      simp only
      rcases createUserInvite R client d.login_name d.role w1 with ⟨ri, w2⟩
      cases ri with
      | error e => exact ⟨rfl, rfl⟩
      | ok inv => exact ⟨rfl, rfl⟩

/-! ## Claims -/

/-- C1 (as stated, refuted): with the blank identity `" "`, an invitation whose
email and a user whose login name both equal it after normalization,
`membershipResolve` does not return the pending result of that invitation but
the error "login_name is empty". -/
theorem resolve_precedence_blank_identity :
    normalize (fun c => c) (userInvite.mk "inv1" " " "member").Email = normalize (fun c => c) " " ∧
    normalize (fun c => c) (User.mk "u1" " " "member" "active").LoginName =
      normalize (fun c => c) " " ∧
    (membershipResolve (fun c => c) directory ⟨"example.com"⟩ " "
      ⟨⟨[⟨"inv1", " ", "member"⟩], [⟨"u1", " ", "member", "active"⟩]⟩, []⟩).1 =
      .error (diagErrorf "login_name is empty") ∧
    (membershipResolve (fun c => c) directory ⟨"example.com"⟩ " "
      ⟨⟨[⟨"inv1", " ", "member"⟩], [⟨"u1", " ", "member", "active"⟩]⟩, []⟩).1 ≠
      .ok (some (pendingResult ⟨"inv1", " ", "member"⟩)) := by
  refine ⟨rfl, rfl, rfl, ?_⟩
  intro h
  have e : (membershipResolve (fun c => c) directory ⟨"example.com"⟩ " "
      ⟨⟨[⟨"inv1", " ", "member"⟩], [⟨"u1", " ", "member", "active"⟩]⟩, []⟩).1 =
      .error (diagErrorf "login_name is empty") := rfl
  rw [e] at h
  cases h

/-- C1 (amended): for every identity whose normalized form is non-empty and
every successfully listed pair of collections in which `inv` is the first
invitation whose normalized email equals the normalized identity and some user
has a login name that equals it too, `membershipResolve` returns the pending
state with the id and role of `inv`, an empty user id and no user record. -/
theorem resolve_precedence (lower : Char → Char) (R : Remote σ) (client : Client)
    (identity : String) (w w1 w2 : World σ) (users : List User)
    (pre post : List userInvite) (inv : userInvite) (u : User)
    (hne : normalize lower identity ≠ "")
    (hu : usersList R w = (.ok users, w1))
    (hi : listUserInvites R client w1 = (.ok (pre ++ inv :: post), w2))
    (hpre : ∀ i ∈ pre, normalize lower i.Email ≠ normalize lower identity)
    (hinv : normalize lower inv.Email = normalize lower identity)
    (_hmem : u ∈ users) (_hum : normalize lower u.LoginName = normalize lower identity) :
    membershipResolve lower R client identity w =
      (.ok (some { State := "pending", Role := inv.Role, InviteID := inv.ID,
                   UserID := "", User := none }), w2) := by
  rw [membershipResolve_of_lists lower R client identity w w1 w2 users _ hne hu hi,
    matchInvite_first lower _ pre post inv hpre hinv]
  rfl

/-- C1 (witness): the second invitation is the first match and wins over the
matching user. -/
theorem resolve_precedence_witness :
    membershipResolve (fun c => c) directory ⟨"example.com"⟩ " Alice@Example.com"
      ⟨⟨[⟨"inv1", "bob@example.com", "member"⟩, ⟨"inv2", "ALICE@example.com ", "admin"⟩],
        [⟨"u1", "alice@example.com", "member", "active"⟩]⟩, []⟩ =
      (.ok (some { State := "pending", Role := "admin", InviteID := "inv2",
                   UserID := "", User := none }),
       ⟨⟨[⟨"inv1", "bob@example.com", "member"⟩, ⟨"inv2", "ALICE@example.com ", "admin"⟩],
        [⟨"u1", "alice@example.com", "member", "active"⟩]⟩,
        [Call.usersList, Call.listUserInvites "example.com"]⟩) :=
  resolve_precedence (fun c => c) directory ⟨"example.com"⟩ " Alice@Example.com" _ _ _
    [⟨"u1", "alice@example.com", "member", "active"⟩]
    [⟨"inv1", "bob@example.com", "member"⟩] [] ⟨"inv2", "ALICE@example.com ", "admin"⟩
    ⟨"u1", "alice@example.com", "member", "active"⟩
    (by decide) rfl rfl (by decide) (by decide) (by simp) (by decide)

/-- C2: matching is case-insensitive and exact. For case tables that keep white
space white (as the Unicode tables do): (1) `membershipResolve` returns the same
result, in the same world, for an identity and for every string that differs
from it only in letter case or in leading and trailing white space; (2) on
successfully listed collections a pending result comes from an invitation whose
normalized email equals the normalized identity, a resolved result from a user
whose normalized login name equals it while no invitation's email does, and the
absent result is returned only when no invitation email and no user login name
equals it, one of these results being returned whenever the normalized identity
is non-empty; (3) the identity "Alice@Example.com" resolves against the stored
invitation email "alice@example.com" as pending, whereas the proper prefix
"alice" of that email resolves as absent. -/
theorem resolve_case_insensitive (lower : Char → Char)
    (hsp : ∀ c, isSpace c = true → isSpace (lower c) = true) :
    (∀ (σ : Type) (R : Remote σ) (client : Client) (w : World σ) (s t : String),
      CaseSpaceVariant lower s t →
      membershipResolve lower R client s w = membershipResolve lower R client t w) ∧
    (∀ (σ : Type) (R : Remote σ) (client : Client) (w w1 w2 w3 : World σ) (identity : String)
      (users : List User) (invites : List userInvite) (res : Option membershipResolveResult),
      usersList R w = (.ok users, w1) → listUserInvites R client w1 = (.ok invites, w2) →
      membershipResolve lower R client identity w = (.ok res, w3) →
      match res with
      | none =>
        (∀ inv ∈ invites, normalize lower inv.Email ≠ normalize lower identity) ∧
        (∀ u ∈ users, normalize lower u.LoginName ≠ normalize lower identity)
      | some r =>
        (∃ inv ∈ invites, normalize lower inv.Email = normalize lower identity ∧
          r = pendingResult inv) ∨
        (∃ u ∈ users, normalize lower u.LoginName = normalize lower identity ∧
          r = userResult u ∧
          ∀ inv ∈ invites, normalize lower inv.Email ≠ normalize lower identity)) ∧
    (∀ (σ : Type) (R : Remote σ) (client : Client) (w w1 w2 : World σ) (identity : String)
      (users : List User) (invites : List userInvite),
      usersList R w = (.ok users, w1) → listUserInvites R client w1 = (.ok invites, w2) →
      normalize lower identity ≠ "" →
      ∃ res, membershipResolve lower R client identity w = (.ok res, w2)) ∧
    (membershipResolve lower directory ⟨"example.com"⟩ "Alice@Example.com"
      ⟨⟨[⟨"inv2", "alice@example.com", "member"⟩], []⟩, []⟩).1 =
      .ok (some { State := "pending", Role := "member", InviteID := "inv2",
                  UserID := "", User := none }) ∧
    (membershipResolve lower directory ⟨"example.com"⟩ "alice"
      ⟨⟨[⟨"inv2", "alice@example.com", "member"⟩], []⟩, []⟩).1 = .ok none := by
  refine ⟨?_, ?_, ?_, rfl, rfl⟩
  · intro σ R client w s t hst
    have hn := normalize_variant lower hsp s t hst
    unfold membershipResolve
    simp only [hn]
  rotate_left
  · intro σ R client w w1 w2 identity users invites hu hi hne
    exact ⟨_, membershipResolve_of_lists lower R client identity w w1 w2 users invites hne hu hi⟩
  · intro σ R client w w1 w2 w3 identity users invites res hu hi hres
    obtain ⟨hne, users', w1', invites', hu', hi', hr⟩ :=
      membershipResolve_ok lower R client identity w w3 res hres
    rw [hu] at hu'
    simp only [Prod.mk.injEq, Except.ok.injEq] at hu'
    obtain ⟨rfl, rfl⟩ := hu'
    rw [hi] at hi'
    simp only [Prod.mk.injEq, Except.ok.injEq] at hi'
    obtain ⟨rfl, rfl⟩ := hi'
    cases hmi : matchInvite lower (normalize lower identity) invites with
    | some r' =>
      rw [hmi] at hr
      simp only [Option.orElse] at hr
      subst hr
      obtain ⟨pre, inv, post, hsplit, _, hinv, hr'⟩ := matchInvite_eq_some lower _ invites r' hmi
      exact Or.inl ⟨inv, by simp [hsplit], hinv, hr'⟩
    | none =>
      rw [hmi] at hr
      simp only [Option.orElse] at hr
      have hnone := (matchInvite_eq_none lower _ invites).mp hmi
      cases hmu : matchUser lower (normalize lower identity) users with
      | none =>
        rw [hmu] at hr
        subst hr
        exact ⟨hnone, (matchUser_eq_none lower _ users).mp hmu⟩
      | some r' =>
        rw [hmu] at hr
        subst hr
        obtain ⟨pre, u, post, hsplit, _, hum, hr'⟩ := matchUser_eq_some lower _ users r' hmu
        exact Or.inr ⟨u, by simp [hsplit], hum, hr', hnone⟩

/-- C2 (witness): with the identity case table, the identities
"  Alice@Example.COM" and "alice@example.com " resolve alike. -/
theorem resolve_case_insensitive_witness :
    membershipResolve (fun c => c) directory ⟨"example.com"⟩ "  Alice@Example.COM"
      ⟨⟨[⟨"inv2", "alice@example.com", "member"⟩], []⟩, []⟩ =
    membershipResolve (fun c => c) directory ⟨"example.com"⟩ "alice@example.com "
      ⟨⟨[⟨"inv2", "alice@example.com", "member"⟩], []⟩, []⟩ :=
  (resolve_case_insensitive (fun c => c) (fun _ h => h)).1 Directory directory ⟨"example.com"⟩
    ⟨⟨[⟨"inv2", "alice@example.com", "member"⟩], []⟩, []⟩ "  Alice@Example.COM"
    "alice@example.com "
    ⟨[' ', ' '], "Alice@Example.COM".data, [], [], "alice@example.com".data, [' '],
      rfl, rfl, by decide, by decide⟩

/-- C3: for every identity whose normalized form is non-empty and successfully
listed invitations and users, `membershipResolve` returns the absent result
(nil, no error) if and only if no invitation email and no user login name equals
the identity after normalization; and when no invitation matches and `u` is the
first user in list order whose login name matches, it returns the resolved
result carrying the id and role of `u`. -/
theorem resolve_absent_iff (lower : Char → Char) (R : Remote σ) (client : Client)
    (identity : String) (w w1 w2 : World σ) (users : List User) (invites : List userInvite)
    (hne : normalize lower identity ≠ "")
    (hu : usersList R w = (.ok users, w1))
    (hi : listUserInvites R client w1 = (.ok invites, w2)) :
    ((membershipResolve lower R client identity w).1 = .ok none ↔
      (∀ inv ∈ invites, normalize lower inv.Email ≠ normalize lower identity) ∧
      (∀ v ∈ users, normalize lower v.LoginName ≠ normalize lower identity)) ∧
    ((∀ inv ∈ invites, normalize lower inv.Email ≠ normalize lower identity) →
      ∀ (pre post : List User) (u : User), users = pre ++ u :: post →
        (∀ v ∈ pre, normalize lower v.LoginName ≠ normalize lower identity) →
        normalize lower u.LoginName = normalize lower identity →
        (membershipResolve lower R client identity w).1 =
          .ok (some { State := if u.Status = "suspended" then "disabled" else "active",
                      Role := u.Role, InviteID := "", UserID := u.ID, User := some u })) := by
  rw [membershipResolve_of_lists lower R client identity w w1 w2 users invites hne hu hi]
  constructor
  · constructor
    · intro h
      simp only [Except.ok.injEq] at h
      cases hmi : matchInvite lower (normalize lower identity) invites with
      | some r => rw [hmi] at h; simp [Option.orElse] at h
      | none =>
        rw [hmi] at h
        simp only [Option.orElse] at h
        exact ⟨(matchInvite_eq_none lower _ invites).mp hmi,
          (matchUser_eq_none lower _ users).mp h⟩
    · rintro ⟨h1, h2⟩
      rw [(matchInvite_eq_none lower _ invites).mpr h1]
      simp only [Option.orElse]
      rw [(matchUser_eq_none lower _ users).mpr h2]
  · intro h1 pre post u hsplit hpre hum
    rw [(matchInvite_eq_none lower _ invites).mpr h1, hsplit]
    simp only [Option.orElse]
    rw [matchUser_first lower _ pre post u hpre hum]
    rfl

/-- C3 (witness): no invitation matches, the second user is the first match. -/
theorem resolve_absent_iff_witness :
    ((membershipResolve (fun c => c) directory ⟨"example.com"⟩ "alice@example.com"
        ⟨⟨[⟨"inv1", "bob@example.com", "member"⟩],
          [⟨"u0", "carol@example.com", "admin", "active"⟩,
            ⟨"u1", "Alice@example.com", "member", "active"⟩]⟩, []⟩).1 = .ok none ↔
      (∀ inv ∈ [(⟨"inv1", "bob@example.com", "member"⟩ : userInvite)],
        normalize (fun c => c) inv.Email ≠ normalize (fun c => c) "alice@example.com") ∧
      (∀ v ∈ [(⟨"u0", "carol@example.com", "admin", "active"⟩ : User),
          ⟨"u1", "Alice@example.com", "member", "active"⟩],
        normalize (fun c => c) v.LoginName ≠ normalize (fun c => c) "alice@example.com")) ∧
    (membershipResolve (fun c => c) directory ⟨"example.com"⟩ "alice@example.com"
        ⟨⟨[⟨"inv1", "bob@example.com", "member"⟩],
          [⟨"u0", "carol@example.com", "admin", "active"⟩,
            ⟨"u1", "Alice@example.com", "member", "active"⟩]⟩, []⟩).1 =
      .ok (some { State := "active", Role := "member", InviteID := "", UserID := "u1",
                  User := some ⟨"u1", "Alice@example.com", "member", "active"⟩ }) :=
  have h := resolve_absent_iff (fun c => c) directory ⟨"example.com"⟩ "alice@example.com"
    ⟨⟨[⟨"inv1", "bob@example.com", "member"⟩],
      [⟨"u0", "carol@example.com", "admin", "active"⟩,
        ⟨"u1", "Alice@example.com", "member", "active"⟩]⟩, []⟩ _ _
    [⟨"u0", "carol@example.com", "admin", "active"⟩,
      ⟨"u1", "Alice@example.com", "member", "active"⟩]
    [⟨"inv1", "bob@example.com", "member"⟩] (by decide) rfl rfl
  ⟨h.1, h.2 (by decide) [⟨"u0", "carol@example.com", "admin", "active"⟩] []
    ⟨"u1", "Alice@example.com", "member", "active"⟩ rfl (by decide) (by decide)⟩

/-- C4: whenever `membershipResolve` returns a result for a user `u`, the
reported state is "disabled" if and only if the status of `u` is suspended, it
is "active" for every other status value and never "pending"; and Read, run on
an identifier of that identity, stores that state and reports `suspended = true`
exactly when the state is "disabled". -/
theorem resolved_substate (lower : Char → Char) (R : Remote σ) (client : Client)
    (identity : String) (w w1 : World σ) (r : membershipResolveResult) (u : User)
    (h : membershipResolve lower R client identity w = (.ok (some r), w1))
    (hu : r.User = some u) :
    (r.State = "disabled" ↔ u.Status = "suspended") ∧
    (u.Status ≠ "suspended" → r.State = "active") ∧
    r.State ≠ "pending" ∧
    (∀ (d : ResourceData) (tn : String), parseMembershipID d.Id = .ok (tn, identity) →
      (resourceTailnetMembershipRead lower R client d w).d.state = r.State ∧
      ((resourceTailnetMembershipRead lower R client d w).d.suspended = true ↔
        r.State = "disabled")) := by
  have hr := membershipResolve_user lower R client identity w w1 r u h hu
  refine ⟨?_, ?_, ?_, ?_⟩
  · rw [hr]
    unfold userResult
    by_cases hs : u.Status = UserStatusSuspended
    · simp only [hs, if_true]
      exact ⟨fun _ => rfl, fun _ => rfl⟩
    · simp only [hs, if_false]
      constructor
      · intro hcon
        exact absurd hcon (by decide)
      · intro hcon
        exact absurd hcon hs
  · intro hs
    rw [hr]
    unfold userResult
    have hs' : ¬ u.Status = UserStatusSuspended := hs
    simp only [hs', if_false]
    rfl
  · rw [hr]
    exact userResult_state_ne_pending u
  · intro d tn hid
    rw [read_of_resolved lower R client d w w1 tn identity r hid h]
    refine ⟨rfl, ?_⟩
    simp only [decide_eq_true_eq]
    exact Iff.rfl

/-- C4 (witness): a suspended user resolves as "disabled". -/
theorem resolved_substate_witness :
    ((membershipResolveResult.mk "disabled" "member" "" "u3"
        (some ⟨"u3", "alice@example.com", "member", "suspended"⟩)).State = "disabled" ↔
      (User.mk "u3" "alice@example.com" "member" "suspended").Status = "suspended") ∧
    ((User.mk "u3" "alice@example.com" "member" "suspended").Status ≠ "suspended" →
      (membershipResolveResult.mk "disabled" "member" "" "u3"
        (some ⟨"u3", "alice@example.com", "member", "suspended"⟩)).State = "active") ∧
    (membershipResolveResult.mk "disabled" "member" "" "u3"
        (some ⟨"u3", "alice@example.com", "member", "suspended"⟩)).State ≠ "pending" ∧
    (∀ (d : ResourceData) (tn : String),
      parseMembershipID d.Id = .ok (tn, "alice@example.com") →
      (resourceTailnetMembershipRead (fun c => c) directory ⟨"example.com"⟩ d
        ⟨⟨[], [⟨"u3", "alice@example.com", "member", "suspended"⟩]⟩, []⟩).d.state =
        (membershipResolveResult.mk "disabled" "member" "" "u3"
          (some ⟨"u3", "alice@example.com", "member", "suspended"⟩)).State ∧
      ((resourceTailnetMembershipRead (fun c => c) directory ⟨"example.com"⟩ d
        ⟨⟨[], [⟨"u3", "alice@example.com", "member", "suspended"⟩]⟩, []⟩).d.suspended = true ↔
        (membershipResolveResult.mk "disabled" "member" "" "u3"
          (some ⟨"u3", "alice@example.com", "member", "suspended"⟩)).State = "disabled")) :=
  resolved_substate (fun c => c) directory ⟨"example.com"⟩ "alice@example.com"
    ⟨⟨[], [⟨"u3", "alice@example.com", "member", "suspended"⟩]⟩, []⟩ _
    ⟨"disabled", "member", "", "u3", some ⟨"u3", "alice@example.com", "member", "suspended"⟩⟩
    ⟨"u3", "alice@example.com", "member", "suspended"⟩ rfl rfl

/-- C5: over the directory model, in which creating an invitation adds one
invitation with the given email and role, starting from a directory in which the
identity is absent: the first run of `resourceTailnetMembershipCreate` succeeds,
issues exactly the one call `createUserInvite(identity, role)` after the two
listings and stores the state "pending" with the desired role; the identity then
resolves as pending with that role; and a second run with the same identity,
role and suspended flag, continuing the same log, adds no Gateway write and
leaves the directory as the first run left it, so one invitation is created in
total. -/
theorem create_idempotent (lower : Char → Char) (client : Client) (dir : Directory)
    (d d2 : ResourceData)
    (habs : (membershipResolve lower directory client d.login_name ⟨dir, []⟩).1 = .ok none)
    (h2 : d2.login_name = d.login_name) (_h2r : d2.role = d.role)
    (_h2s : d2.suspended = d.suspended) :
    (resourceTailnetMembershipCreate lower directory client d ⟨dir, []⟩).diags = none ∧
    (resourceTailnetMembershipCreate lower directory client d ⟨dir, []⟩).w.calls =
      [Call.usersList, Call.listUserInvites client.Tailnet,
       Call.createUserInvite client.Tailnet d.login_name d.role] ∧
    (resourceTailnetMembershipCreate lower directory client d ⟨dir, []⟩).d.state = "pending" ∧
    (resourceTailnetMembershipCreate lower directory client d ⟨dir, []⟩).d.role = d.role ∧
    (∃ id, (membershipResolve lower directory client d.login_name
        ⟨(resourceTailnetMembershipCreate lower directory client d ⟨dir, []⟩).w.remote, []⟩).1 =
      .ok (some { State := "pending", Role := d.role, InviteID := id, UserID := "",
                  User := none })) ∧
    writes (resourceTailnetMembershipCreate lower directory client d2
        (resourceTailnetMembershipCreate lower directory client d ⟨dir, []⟩).w).w.calls =
      [Call.createUserInvite client.Tailnet d.login_name d.role] ∧
    (resourceTailnetMembershipCreate lower directory client d2
        (resourceTailnetMembershipCreate lower directory client d ⟨dir, []⟩).w).w.remote =
      (resourceTailnetMembershipCreate lower directory client d ⟨dir, []⟩).w.remote := by
  have hne : normalize lower d.login_name ≠ "" := by
    intro hcon
    simp [membershipResolve, hcon] at habs
  have hres := directory_resolve lower client d.login_name dir [] hne
  rw [hres] at habs
  simp only [Except.ok.injEq] at habs
  have hmi : matchInvite lower (normalize lower d.login_name) dir.invites = none := by
    cases hm : matchInvite lower (normalize lower d.login_name) dir.invites with
    | none => rfl
    | some r => rw [hm] at habs; simp [Option.orElse] at habs
  rw [habs] at hres
  have hcreate : resourceTailnetMembershipCreate lower directory client d ⟨dir, []⟩ =
      ⟨none, { d with
                Id := resourceTailnetMembershipID
                  (if client.Tailnet = "" then "-" else client.Tailnet) d.login_name,
                state := membershipStatePending,
                invite_id := "inv" ++ toString dir.invites.length,
                role := d.role },
        ⟨⟨dir.invites ++ [⟨"inv" ++ toString dir.invites.length, d.login_name, d.role⟩],
          dir.users⟩,
          [Call.usersList, Call.listUserInvites client.Tailnet,
           Call.createUserInvite client.Tailnet d.login_name d.role]⟩⟩ := by
    unfold resourceTailnetMembershipCreate
    simp only [hres, directory_createUserInvite]
    rfl
  have hfirst : ∀ calls, membershipResolve lower directory client d.login_name
      ⟨⟨dir.invites ++ [⟨"inv" ++ toString dir.invites.length, d.login_name, d.role⟩],
        dir.users⟩, calls⟩ =
      (.ok (some (pendingResult ⟨"inv" ++ toString dir.invites.length, d.login_name, d.role⟩)),
        ⟨⟨dir.invites ++ [⟨"inv" ++ toString dir.invites.length, d.login_name, d.role⟩],
          dir.users⟩, calls ++ [Call.usersList, Call.listUserInvites client.Tailnet]⟩) := by
    intro calls
    rw [directory_resolve lower client d.login_name _ calls hne]
    simp only
    rw [matchInvite_first lower _ dir.invites [] _
      ((matchInvite_eq_none lower _ dir.invites).mp hmi) rfl]
    rfl
  rw [hcreate]
  refine ⟨rfl, rfl, rfl, rfl, ⟨"inv" ++ toString dir.invites.length, ?_⟩, ?_, ?_⟩
  · simp only
    rw [hfirst []]
    rfl
  · simp only
    have h2' := hfirst [Call.usersList, Call.listUserInvites client.Tailnet,
      Call.createUserInvite client.Tailnet d.login_name d.role]
    rw [show d.login_name = d2.login_name from h2.symm] at h2'
    rw [show d.login_name = d2.login_name from h2.symm,
      create_of_resolved lower directory client d2 _ _ _ h2', read_writes]
    simp [writes, Call.isWrite]
  · simp only
    have h2' := hfirst [Call.usersList, Call.listUserInvites client.Tailnet,
      Call.createUserInvite client.Tailnet d.login_name d.role]
    rw [show d.login_name = d2.login_name from h2.symm] at h2'
    rw [show d.login_name = d2.login_name from h2.symm,
      create_of_resolved lower directory client d2 _ _ _ h2', directory_read_remote]

/-- C5 (witness): the identity "bob@x.com" with role "admin" on the empty
directory: one `createUserInvite` call with role "admin". -/
theorem create_idempotent_witness :
    (resourceTailnetMembershipCreate (fun c => c) directory ⟨"example.com"⟩
      ⟨"", "bob@x.com", "admin", false, false, "", "", ""⟩ ⟨⟨[], []⟩, []⟩).w.calls =
      [Call.usersList, Call.listUserInvites "example.com",
       Call.createUserInvite "example.com" "bob@x.com" "admin"] ∧
    (resourceTailnetMembershipCreate (fun c => c) directory ⟨"example.com"⟩
      ⟨"", "bob@x.com", "admin", false, false, "", "", ""⟩ ⟨⟨[], []⟩, []⟩).d.state =
      "pending" ∧
    (resourceTailnetMembershipCreate (fun c => c) directory ⟨"example.com"⟩
      ⟨"", "bob@x.com", "admin", false, false, "", "", ""⟩ ⟨⟨[], []⟩, []⟩).d.role =
      "admin" ∧
    writes (resourceTailnetMembershipCreate (fun c => c) directory ⟨"example.com"⟩
      ⟨"", "bob@x.com", "admin", false, false, "", "", ""⟩
      (resourceTailnetMembershipCreate (fun c => c) directory ⟨"example.com"⟩
        ⟨"", "bob@x.com", "admin", false, false, "", "", ""⟩ ⟨⟨[], []⟩, []⟩).w).w.calls =
      [Call.createUserInvite "example.com" "bob@x.com" "admin"] :=
  have h := create_idempotent (fun c => c) ⟨"example.com"⟩ ⟨[], []⟩
    ⟨"", "bob@x.com", "admin", false, false, "", "", ""⟩
    ⟨"", "bob@x.com", "admin", false, false, "", "", ""⟩ rfl rfl rfl rfl
  ⟨h.2.1, h.2.2.1, h.2.2.2.1, h.2.2.2.2.2.1⟩

/-- C6 (as stated, refuted): on the initial-apply path a user with role
"member" and a desired role "admin" lead to no `setRole` call: the calls of
`resourceTailnetMembershipCreate` are the two listings of Resolve and the two
listings of Read, and the stored role is the observed one. On the update path
the same holds for a user whose id is empty. -/
theorem create_resolved_user_no_set_role :
    (resourceTailnetMembershipUpdate (fun c => c) directory ⟨"example.com"⟩
      ⟨"example.com:alice@example.com", "alice@example.com", "admin", false, false,
        "active", "", ""⟩
      ⟨⟨[], [⟨"", "alice@example.com", "member", "active"⟩]⟩, []⟩).w.calls =
      [Call.usersList, Call.listUserInvites "example.com",
       Call.usersList, Call.listUserInvites "example.com"] ∧
    (membershipResolve (fun c => c) directory ⟨"example.com"⟩ "alice@example.com"
      ⟨⟨[], [⟨"user1", "alice@example.com", "member", "active"⟩]⟩, []⟩).1 =
      .ok (some (userResult ⟨"user1", "alice@example.com", "member", "active"⟩)) ∧
    (resourceTailnetMembershipCreate (fun c => c) directory ⟨"example.com"⟩
      ⟨"", "alice@example.com", "admin", false, false, "", "", ""⟩
      ⟨⟨[], [⟨"user1", "alice@example.com", "member", "active"⟩]⟩, []⟩).w.calls =
      [Call.usersList, Call.listUserInvites "example.com",
       Call.usersList, Call.listUserInvites "example.com"] ∧
    (resourceTailnetMembershipCreate (fun c => c) directory ⟨"example.com"⟩
      ⟨"", "alice@example.com", "admin", false, false, "", "", ""⟩
      ⟨⟨[], [⟨"user1", "alice@example.com", "member", "active"⟩]⟩, []⟩).w.calls.filter
        Call.isSetRole = [] ∧
    (resourceTailnetMembershipCreate (fun c => c) directory ⟨"example.com"⟩
      ⟨"", "alice@example.com", "admin", false, false, "", "", ""⟩
      ⟨⟨[], [⟨"user1", "alice@example.com", "member", "active"⟩]⟩, []⟩).d.role = "member" :=
  ⟨rfl, rfl, rfl, rfl, rfl⟩

/-- C6 (amended): for every identity that resolves to a user `u` with a
non-empty id and every desired role, the update path issues
`updateUserRole(u.id, desired role)` exactly once when the role of `u` differs
from the desired role and no role call when they are equal; the initial-apply
path issues no Gateway write for such an identity, whatever the desired role. -/
theorem update_role_diff (lower : Char → Char) (R : Remote σ) (client : Client)
    (s : σ) (w1 : World σ) (identity : String) (r : membershipResolveResult) (u : User)
    (hres : membershipResolve lower R client identity ⟨s, []⟩ = (.ok (some r), w1))
    (hu : r.User = some u) (hidne : u.ID ≠ "") :
    (∀ (d : ResourceData) (tn : String), parseMembershipID d.Id = .ok (tn, identity) →
      (resourceTailnetMembershipUpdate lower R client d ⟨s, []⟩).w.calls.filter Call.isSetRole =
        if u.Role ≠ d.role then [Call.updateUserRole u.ID d.role] else []) ∧
    (∀ d : ResourceData, d.login_name = identity →
      writes (resourceTailnetMembershipCreate lower R client d ⟨s, []⟩).w.calls = []) := by
  have hr := membershipResolve_user lower R client identity _ w1 r u hres hu
  constructor
  · intro d tn hid
    have hstate : r.State ≠ membershipStatePending := by
      rw [hr]; exact userResult_state_ne_pending u
    have hid' : r.UserID ≠ "" := by rw [hr]; exact hidne
    have hw := update_user_writes lower R client d ⟨s, []⟩ w1 tn identity r hid hres hstate hid'
    rw [← filter_isSetRole_writes, hw]
    have e1 : r.Role = u.Role := by rw [hr]; rfl
    have e2 : r.UserID = u.ID := by rw [hr]; rfl
    rw [e1, e2]
    by_cases hrole : u.Role = d.role
    · simp only [hrole, ne_eq, not_true_eq_false, if_false, true_or, if_true]
      split
      · simp [writes, Call.isSetRole]
      · split <;> simp [writes, Call.isSetRole]
    · simp only [hrole, ne_eq, not_false_eq_true, if_true, false_or]
      split
      · split
        · simp [writes, Call.isSetRole]
        · split <;> simp [writes, Call.isSetRole]
      · simp [writes, Call.isSetRole]
  · intro d hd
    subst hd
    rw [create_of_resolved lower R client d _ w1 r hres, read_writes]
    have := membershipResolve_writes lower R client d.login_name ⟨s, []⟩
    rw [hres] at this
    simpa [writes] using this

/-- C6 (witness): an update from role "member" to "admin" issues the one role
call. -/
theorem update_role_diff_witness :
    (resourceTailnetMembershipUpdate (fun c => c) directory ⟨"example.com"⟩
      ⟨"example.com:alice@example.com", "alice@example.com", "admin", false, false,
        "active", "", "user1"⟩
      ⟨⟨[], [⟨"user1", "alice@example.com", "member", "active"⟩]⟩, []⟩).w.calls.filter
        Call.isSetRole =
      if (User.mk "user1" "alice@example.com" "member" "active").Role ≠ "admin" then
        [Call.updateUserRole "user1" "admin"] else [] :=
  (update_role_diff (fun c => c) directory ⟨"example.com"⟩
    ⟨[], [⟨"user1", "alice@example.com", "member", "active"⟩]⟩ _ "alice@example.com"
    (userResult ⟨"user1", "alice@example.com", "member", "active"⟩)
    ⟨"user1", "alice@example.com", "member", "active"⟩ rfl rfl (by decide)).1
    ⟨"example.com:alice@example.com", "alice@example.com", "admin", false, false,
      "active", "", "user1"⟩ "example.com" rfl

/-- C7 (as stated, refuted): two resolved, active users with a desired
suspension for whom the update path issues no suspend call: one whose role
differs from the desired role on a remote that rejects the role call, and one
whose user id is empty. -/
theorem update_no_suspend_call :
    ((membershipResolve (fun c => c) (directory.denying Call.isSetRole) ⟨"example.com"⟩
        "alice@example.com" ⟨⟨[], [⟨"u3", "alice@example.com", "member", "active"⟩]⟩, []⟩).1 =
        .ok (some (userResult ⟨"u3", "alice@example.com", "member", "active"⟩)) ∧
      (resourceTailnetMembershipUpdate (fun c => c) (directory.denying Call.isSetRole)
        ⟨"example.com"⟩
        ⟨"example.com:alice@example.com", "alice@example.com", "admin", false, true,
          "active", "", "u3"⟩
        ⟨⟨[], [⟨"u3", "alice@example.com", "member", "active"⟩]⟩, []⟩).w.calls.filter
          Call.isSuspension = []) ∧
    ((membershipResolve (fun c => c) directory ⟨"example.com"⟩
        "alice@example.com" ⟨⟨[], [⟨"", "alice@example.com", "member", "active"⟩]⟩, []⟩).1 =
        .ok (some (userResult ⟨"", "alice@example.com", "member", "active"⟩)) ∧
      (resourceTailnetMembershipUpdate (fun c => c) directory ⟨"example.com"⟩
        ⟨"example.com:alice@example.com", "alice@example.com", "member", false, true,
          "active", "", ""⟩
        ⟨⟨[], [⟨"", "alice@example.com", "member", "active"⟩]⟩, []⟩).w.calls =
        [Call.usersList, Call.listUserInvites "example.com",
         Call.usersList, Call.listUserInvites "example.com"]) :=
  ⟨⟨rfl, rfl⟩, ⟨rfl, rfl⟩⟩

/-- C7 (amended): for every resolved user `u` with a non-empty id, provided the
role call, if one is due, does not fail, the update path issues exactly one
suspend call (and no restore) when the desired flag is set and `u` is not
suspended, exactly one restore call (and no suspend) when the flag is not set
and `u` is suspended, and neither call otherwise. Over the directory model, in
which suspend and restore set the status of the user: the update path with
`suspended = true` on an active user succeeds, issues the one suspend call and
ends with the state "disabled", which Resolve then reports; a following run with
`suspended = false` succeeds, issues the one restore call and ends with the
state "active", which Resolve then reports. -/
theorem update_suspension_diff (lower : Char → Char) :
    (∀ (σ : Type) (R : Remote σ) (client : Client) (d : ResourceData) (s : σ) (w1 : World σ)
      (tn identity : String) (r : membershipResolveResult) (u : User),
      parseMembershipID d.Id = .ok (tn, identity) →
      membershipResolve lower R client identity ⟨s, []⟩ = (.ok (some r), w1) →
      r.User = some u → u.ID ≠ "" →
      (u.Role = d.role ∨ (updateUserRole R u.ID d.role w1).1 = none) →
      (resourceTailnetMembershipUpdate lower R client d ⟨s, []⟩).w.calls.filter
        Call.isSuspension =
        if d.suspended = true ∧ u.Status ≠ "suspended" then [Call.suspendUser u.ID]
        else if d.suspended = false ∧ u.Status = "suspended" then [Call.restoreUser u.ID]
        else []) ∧
    (∀ (client : Client) (d : ResourceData) (dir : Directory) (w1 : World Directory)
      (tn identity : String) (r : membershipResolveResult) (u : User)
      (o1 o2 : Outcome Directory),
      parseMembershipID d.Id = .ok (tn, identity) →
      membershipResolve lower directory client identity ⟨dir, []⟩ = (.ok (some r), w1) →
      r.User = some u → u.ID ≠ "" → u.Status ≠ "suspended" →
      o1 = resourceTailnetMembershipUpdate lower directory client
        { d with suspended := true } ⟨dir, []⟩ →
      o2 = resourceTailnetMembershipUpdate lower directory client
        { o1.d with suspended := false } ⟨o1.w.remote, []⟩ →
      o1.diags = none ∧
      o1.w.calls.filter Call.isSuspension = [Call.suspendUser u.ID] ∧
      o1.d.state = "disabled" ∧
      (∃ r1, (membershipResolve lower directory client identity ⟨o1.w.remote, []⟩).1 =
        .ok (some r1) ∧ r1.State = "disabled") ∧
      o2.diags = none ∧
      o2.w.calls.filter Call.isSuspension = [Call.restoreUser u.ID] ∧
      o2.w.calls.filter Call.isSetRole = [] ∧
      o2.d.state = "active" ∧
      (∃ r2, (membershipResolve lower directory client identity ⟨o2.w.remote, []⟩).1 =
        .ok (some r2) ∧ r2.State = "active")) := by
  constructor
  · intro σ R client d s w1 tn identity r u hid hres hu hidne hrole
    have hr := membershipResolve_user lower R client identity _ w1 r u hres hu
    have hstate : r.State ≠ membershipStatePending := by
      rw [hr]; exact userResult_state_ne_pending u
    have hid' : r.UserID ≠ "" := by rw [hr]; exact hidne
    have e1 : r.Role = u.Role := by rw [hr]; rfl
    have e2 : r.UserID = u.ID := by rw [hr]; rfl
    have e3 : r.State = membershipStateDisabled ↔ u.Status = "suspended" := by
      rw [hr]
      show (if u.Status = UserStatusSuspended then membershipStateDisabled
        else membershipStateActive) = membershipStateDisabled ↔ u.Status = "suspended"
      by_cases hs : u.Status = UserStatusSuspended
      · rw [if_pos hs]
        exact ⟨fun _ => hs, fun _ => rfl⟩
      · rw [if_neg hs]
        exact ⟨fun hcon => absurd hcon (by decide), fun hcon => absurd hcon hs⟩
    have hw := update_user_writes lower R client d ⟨s, []⟩ w1 tn identity r hid hres hstate hid'
    rw [← filter_isSuspension_writes, hw, e1, e2]
    simp only [hrole, if_true, ne_eq, e3]
    by_cases hro : u.Role = d.role
    · simp only [hro, not_true_eq_false, if_false]
      split
      · simp [writes, Call.isSuspension]
      · split <;> simp [writes, Call.isSuspension]
    · simp only [hro, not_false_eq_true, if_true]
      split
      · simp [writes, Call.isSuspension]
      · split <;> simp [writes, Call.isSuspension]
  · intro client d dir w1 tn identity r u o1 o2 hid hres hu hidne hact ho1 ho2
    obtain ⟨hne, hmi, hfind⟩ :=
      directory_resolve_user_inv lower client identity dir [] w1 r u hres hu
    obtain ⟨users1, calls1, h1, hf1, hs1, _⟩ :=
      directory_update_suspend lower client { d with suspended := true } tn identity dir u
        hid hne hmi hfind hidne rfl hact
    rw [h1] at ho1
    subst ho1
    obtain ⟨users2, calls2, h2, hf2, hs2, hr2⟩ :=
      directory_update_restore lower client
        { Id := d.Id, login_name := identity, role := d.role,
          downgrade_on_destroy := d.downgrade_on_destroy, suspended := false,
          state := membershipStateDisabled, invite_id := "", user_id := u.ID }
        tn identity ⟨dir.invites, users1⟩
        { u with Role := d.role, Status := UserStatusSuspended }
        hid hne hmi hf1 hidne rfl rfl
    rw [h2] at ho2
    subst ho2
    refine ⟨rfl, hs1, rfl, ?_, rfl, hs2, ?_, rfl, ?_⟩
    · refine ⟨userResult { u with Role := d.role, Status := UserStatusSuspended }, ?_, rfl⟩
      exact congrArg Prod.fst (directory_resolve_user lower client identity
        ⟨dir.invites, users1⟩ [] _ hne hmi hf1)
    · simpa using hr2
    · refine ⟨userResult { u with Role := d.role, Status := "active" }, ?_, rfl⟩
      exact congrArg Prod.fst (directory_resolve_user lower client identity
        ⟨dir.invites, users2⟩ [] _ hne hmi hf2)

/-- C7 (witness): the user "u3" is suspended by a first run and restored by a
second one. -/
theorem update_suspension_diff_witness :
    (resourceTailnetMembershipUpdate (fun c => c) directory ⟨"example.com"⟩
      { (⟨"example.com:alice@example.com", "alice@example.com", "member", false, false,
          "active", "", "u3"⟩ : ResourceData) with suspended := true }
      ⟨⟨[], [⟨"u3", "alice@example.com", "member", "active"⟩]⟩, []⟩).d.state = "disabled" ∧
    (resourceTailnetMembershipUpdate (fun c => c) directory ⟨"example.com"⟩
      { (⟨"example.com:alice@example.com", "alice@example.com", "member", false, false,
          "active", "", "u3"⟩ : ResourceData) with suspended := true }
      ⟨⟨[], [⟨"u3", "alice@example.com", "member", "active"⟩]⟩, []⟩).w.calls.filter
        Call.isSuspension = [Call.suspendUser "u3"] :=
  have h := (update_suspension_diff (fun c => c)).2 ⟨"example.com"⟩
    ⟨"example.com:alice@example.com", "alice@example.com", "member", false, false,
      "active", "", "u3"⟩
    ⟨[], [⟨"u3", "alice@example.com", "member", "active"⟩]⟩ _ "example.com"
    "alice@example.com" (userResult ⟨"u3", "alice@example.com", "member", "active"⟩)
    ⟨"u3", "alice@example.com", "member", "active"⟩ _ _ rfl rfl rfl (by decide) (by decide)
    rfl rfl
  ⟨h.2.2.1, h.2.1⟩

/-- C8 (as stated, refuted): a user with role "member" that is active, a desired
role "admin", a desired suspension and a remote that rejects the role call: the
update path returns the role failure right after the role call and issues no
suspend call. -/
theorem update_role_failure_stops :
    (membershipResolve (fun c => c) (directory.denying Call.isSetRole) ⟨"example.com"⟩
      "alice@example.com" ⟨⟨[], [⟨"u3", "alice@example.com", "member", "active"⟩]⟩, []⟩).1 =
      .ok (some (userResult ⟨"u3", "alice@example.com", "member", "active"⟩)) ∧
    (updateUserRole (directory.denying Call.isSetRole) "u3" "admin"
      ⟨⟨[], [⟨"u3", "alice@example.com", "member", "active"⟩]⟩,
        [Call.usersList, Call.listUserInvites "example.com"]⟩).1 =
      some "update user role: 403 Forbidden (403): forbidden" ∧
    (resourceTailnetMembershipUpdate (fun c => c) (directory.denying Call.isSetRole)
      ⟨"example.com"⟩
      ⟨"example.com:alice@example.com", "alice@example.com", "admin", false, true,
        "active", "", "u3"⟩
      ⟨⟨[], [⟨"u3", "alice@example.com", "member", "active"⟩]⟩, []⟩).w.calls =
      [Call.usersList, Call.listUserInvites "example.com",
       Call.updateUserRole "u3" "admin"] ∧
    (resourceTailnetMembershipUpdate (fun c => c) (directory.denying Call.isSetRole)
      ⟨"example.com"⟩
      ⟨"example.com:alice@example.com", "alice@example.com", "admin", false, true,
        "active", "", "u3"⟩
      ⟨⟨[], [⟨"u3", "alice@example.com", "member", "active"⟩]⟩, []⟩).w.calls.filter
        Call.isSuspension = [] ∧
    (resourceTailnetMembershipUpdate (fun c => c) (directory.denying Call.isSetRole)
      ⟨"example.com"⟩
      ⟨"example.com:alice@example.com", "alice@example.com", "admin", false, true,
        "active", "", "u3"⟩
      ⟨⟨[], [⟨"u3", "alice@example.com", "member", "active"⟩]⟩, []⟩).diags =
      some (diagnosticsError "update user role: 403 Forbidden (403): forbidden"
        "Failed to update user role") :=
  ⟨rfl, rfl, rfl, rfl, rfl⟩

/-- C8 (amended): for every resolved user `u` with a non-empty id whose role
differs from the desired role, if the role call fails then the update path
returns that failure at once: the role call is its last call, no suspend or
restore call is issued and the resource data is left as it was. In every run of
the update path on such a user the Gateway writes are the role calls followed by
the suspension calls, so the role call precedes the suspension call. -/
theorem update_role_failure (lower : Char → Char) (R : Remote σ) (client : Client)
    (d : ResourceData) (s : σ) (w1 : World σ) (tn identity : String)
    (r : membershipResolveResult) (u : User)
    (hid : parseMembershipID d.Id = .ok (tn, identity))
    (hres : membershipResolve lower R client identity ⟨s, []⟩ = (.ok (some r), w1))
    (hu : r.User = some u) (hidne : u.ID ≠ "") :
    (u.Role ≠ d.role → ∀ err, (updateUserRole R u.ID d.role w1).1 = some err →
      (resourceTailnetMembershipUpdate lower R client d ⟨s, []⟩).diags =
        some (diagnosticsError err "Failed to update user role") ∧
      (resourceTailnetMembershipUpdate lower R client d ⟨s, []⟩).w.calls =
        w1.calls ++ [Call.updateUserRole u.ID d.role] ∧
      writes (resourceTailnetMembershipUpdate lower R client d ⟨s, []⟩).w.calls =
        [Call.updateUserRole u.ID d.role] ∧
      (resourceTailnetMembershipUpdate lower R client d ⟨s, []⟩).d = d) ∧
    (∃ rc sc, writes (resourceTailnetMembershipUpdate lower R client d ⟨s, []⟩).w.calls =
        rc ++ sc ∧
      (∀ c ∈ rc, c = Call.updateUserRole u.ID d.role) ∧
      (∀ c ∈ sc, c.isSuspension = true)) := by
  have hr := membershipResolve_user lower R client identity _ w1 r u hres hu
  have hstate : r.State ≠ membershipStatePending := by
    rw [hr]; exact userResult_state_ne_pending u
  have hid' : r.UserID ≠ "" := by rw [hr]; exact hidne
  have e1 : r.Role = u.Role := by rw [hr]; rfl
  have e2 : r.UserID = u.ID := by rw [hr]; rfl
  have hw := update_user_writes lower R client d ⟨s, []⟩ w1 tn identity r hid hres hstate hid'
  rw [e1, e2] at hw
  constructor
  · intro hrole err hfail
    have hw1 : writes w1.calls = [] := by
      have := membershipResolve_writes lower R client identity ⟨s, []⟩
      rw [hres] at this
      simpa [writes] using this
    have hc := updateUserRole_calls R u.ID d.role w1
    rcases hur : updateUserRole R u.ID d.role w1 with ⟨e, w2⟩
    rw [hur] at hc hfail
    simp only at hc hfail
    subst hfail
    have hupd : resourceTailnetMembershipUpdate lower R client d ⟨s, []⟩ =
        ⟨some (diagnosticsError err "Failed to update user role"), d, w2⟩ := by
      unfold resourceTailnetMembershipUpdate
      simp only [hid, hres, hstate, if_false, hid', ne_eq, not_false_eq_true, if_true, e1, e2,
        hrole, hur, hidne]
    rw [hupd]
    refine ⟨rfl, hc, ?_, rfl⟩
    simp only [hc]
    unfold writes at hw1 ⊢
    rw [List.filter_append, hw1]
    rfl
  · rw [hw]
    refine ⟨if u.Role ≠ d.role then [Call.updateUserRole u.ID d.role] else [],
      if u.Role = d.role ∨ (updateUserRole R u.ID d.role w1).1 = none then
        if d.suspended = true ∧ r.State ≠ membershipStateDisabled then [Call.suspendUser u.ID]
        else if d.suspended = false ∧ r.State = membershipStateDisabled then
          [Call.restoreUser u.ID] else []
      else [], ?_, ?_, ?_⟩
    · simp [writes]
    · intro c hc
      split at hc
      · simpa using hc
      · simp at hc
    · intro c hc
      split at hc
      · split at hc
        · simp only [List.mem_singleton] at hc
          subst hc; rfl
        · split at hc
          · simp only [List.mem_singleton] at hc
            subst hc; rfl
          · simp at hc
      · simp at hc

/-- C8 (witness): the rejected role call on the remote that denies role calls. -/
theorem update_role_failure_witness :
    (resourceTailnetMembershipUpdate (fun c => c) (directory.denying Call.isSetRole)
      ⟨"example.com"⟩
      ⟨"example.com:alice@example.com", "alice@example.com", "admin", false, true,
        "active", "", "u3"⟩
      ⟨⟨[], [⟨"u3", "alice@example.com", "member", "active"⟩]⟩, []⟩).d =
      ⟨"example.com:alice@example.com", "alice@example.com", "admin", false, true,
        "active", "", "u3"⟩ :=
  ((update_role_failure (fun c => c) (directory.denying Call.isSetRole) ⟨"example.com"⟩
    ⟨"example.com:alice@example.com", "alice@example.com", "admin", false, true,
      "active", "", "u3"⟩
    ⟨[], [⟨"u3", "alice@example.com", "member", "active"⟩]⟩ _ "example.com"
    "alice@example.com" (userResult ⟨"u3", "alice@example.com", "member", "active"⟩)
    ⟨"u3", "alice@example.com", "member", "active"⟩ rfl rfl rfl (by decide)).1
    (by decide) "update user role: 403 Forbidden (403): forbidden" rfl).2.2.2

/-- C9: for every identity that resolves to the pending state and every desired
role and suspended flag, neither the initial-apply path nor the update path
issues a Gateway write; each of them is Read run after the resolve, and when
the update path's Read resolves again it stores the observed state, role and
invitation id. -/
theorem pending_no_write (lower : Char → Char) (R : Remote σ) (client : Client)
    (s : σ) (w1 : World σ) (identity : String) (r : membershipResolveResult)
    (hres : membershipResolve lower R client identity ⟨s, []⟩ = (.ok (some r), w1))
    (hp : r.State = "pending") :
    (∀ d : ResourceData, d.login_name = identity →
      writes (resourceTailnetMembershipCreate lower R client d ⟨s, []⟩).w.calls = [] ∧
      resourceTailnetMembershipCreate lower R client d ⟨s, []⟩ =
        resourceTailnetMembershipRead lower R client
          { d with
            Id := resourceTailnetMembershipID
              (if client.Tailnet = "" then "-" else client.Tailnet) identity } w1) ∧
    (∀ (d : ResourceData) (tn : String), parseMembershipID d.Id = .ok (tn, identity) →
      writes (resourceTailnetMembershipUpdate lower R client d ⟨s, []⟩).w.calls = [] ∧
      resourceTailnetMembershipUpdate lower R client d ⟨s, []⟩ =
        resourceTailnetMembershipRead lower R client d w1 ∧
      ∀ (r' : membershipResolveResult) (w2 : World σ),
        membershipResolve lower R client identity w1 = (.ok (some r'), w2) →
        (resourceTailnetMembershipUpdate lower R client d ⟨s, []⟩).diags = none ∧
        (resourceTailnetMembershipUpdate lower R client d ⟨s, []⟩).d.state = r'.State ∧
        (resourceTailnetMembershipUpdate lower R client d ⟨s, []⟩).d.role = r'.Role ∧
        (resourceTailnetMembershipUpdate lower R client d ⟨s, []⟩).d.invite_id = r'.InviteID) := by
  have hw1 : writes w1.calls = [] := by
    have := membershipResolve_writes lower R client identity ⟨s, []⟩
    rw [hres] at this
    simpa [writes] using this
  constructor
  · intro d hd
    subst hd
    have hc := create_of_resolved lower R client d _ w1 r hres
    refine ⟨?_, hc⟩
    rw [hc, read_writes, hw1]
  · intro d tn hid
    have hupd := update_of_pending lower R client d _ w1 tn identity r hid hres hp
    refine ⟨?_, hupd, ?_⟩
    · rw [hupd, read_writes, hw1]
    · intro r' w2 hres'
      rw [hupd, read_of_resolved lower R client d w1 w2 tn identity r' hid hres']
      exact ⟨rfl, rfl, rfl, rfl⟩

/-- C9 (witness): a pending invitation with role "member" and a desired role
"admin" with suspension: the update path issues no write. -/
theorem pending_no_write_witness :
    writes (resourceTailnetMembershipUpdate (fun c => c) directory ⟨"example.com"⟩
      ⟨"example.com:alice@example.com", "alice@example.com", "admin", false, true,
        "pending", "inv2", ""⟩
      ⟨⟨[⟨"inv2", "alice@example.com", "member"⟩], []⟩, []⟩).w.calls = [] :=
  ((pending_no_write (fun c => c) directory ⟨"example.com"⟩
    ⟨[⟨"inv2", "alice@example.com", "member"⟩], []⟩ _ "alice@example.com"
    (pendingResult ⟨"inv2", "alice@example.com", "member"⟩) rfl rfl).2
    ⟨"example.com:alice@example.com", "alice@example.com", "admin", false, true,
      "pending", "inv2", ""⟩ "example.com" rfl).1

/-- C10: for every well-formed identifier whose identity resolves to absent,
Release returns success, issues no Gateway write and leaves the resource data
as it was, whatever the removal policy. -/
theorem delete_absent (lower : Char → Char) (R : Remote σ) (client : Client)
    (d : ResourceData) (s : σ) (w1 : World σ) (tn identity : String)
    (hid : parseMembershipID d.Id = .ok (tn, identity))
    (hres : membershipResolve lower R client identity ⟨s, []⟩ = (.ok none, w1)) :
    ∀ policy : Bool,
      (resourceTailnetMembershipDelete lower R client
        { d with downgrade_on_destroy := policy } ⟨s, []⟩).diags = none ∧
      writes (resourceTailnetMembershipDelete lower R client
        { d with downgrade_on_destroy := policy } ⟨s, []⟩).w.calls = [] ∧
      (resourceTailnetMembershipDelete lower R client
        { d with downgrade_on_destroy := policy } ⟨s, []⟩).d =
        { d with downgrade_on_destroy := policy } := by
  intro policy
  have hw1 : writes w1.calls = [] := by
    have := membershipResolve_writes lower R client identity ⟨s, []⟩
    rw [hres] at this
    simpa [writes] using this
  have hdel : resourceTailnetMembershipDelete lower R client
      { d with downgrade_on_destroy := policy } ⟨s, []⟩ =
      ⟨none, { d with downgrade_on_destroy := policy }, w1⟩ := by
    unfold resourceTailnetMembershipDelete
    simp only [hid, hres]
  rw [hdel]
  exact ⟨rfl, hw1, rfl⟩

/-- C10 (witness): Release on an empty remote, with the downgrade policy. -/
theorem delete_absent_witness :
    (resourceTailnetMembershipDelete (fun c => c) directory ⟨"example.com"⟩
      { (⟨"example.com:alice@example.com", "alice@example.com", "member", false, false,
          "", "", ""⟩ : ResourceData) with downgrade_on_destroy := true }
      ⟨⟨[], []⟩, []⟩).diags = none :=
  (delete_absent (fun c => c) directory ⟨"example.com"⟩
    ⟨"example.com:alice@example.com", "alice@example.com", "member", false, false, "", "", ""⟩
    ⟨[], []⟩ _ "example.com" "alice@example.com" rfl rfl true).1

/-- C11 (as stated, refuted): for a resolved user whose id is empty, Release
with the downgrade policy issues no write at all: its calls are the two
listings of Resolve. -/
theorem delete_downgrade_empty_id :
    (membershipResolve (fun c => c) directory ⟨"example.com"⟩ "alice@example.com"
      ⟨⟨[], [⟨"", "alice@example.com", "admin", "active"⟩]⟩, []⟩).1 =
      .ok (some (userResult ⟨"", "alice@example.com", "admin", "active"⟩)) ∧
    (resourceTailnetMembershipDelete (fun c => c) directory ⟨"example.com"⟩
      ⟨"example.com:alice@example.com", "alice@example.com", "admin", true, false,
        "active", "", ""⟩
      ⟨⟨[], [⟨"", "alice@example.com", "admin", "active"⟩]⟩, []⟩).w.calls =
      [Call.usersList, Call.listUserInvites "example.com"] ∧
    (resourceTailnetMembershipDelete (fun c => c) directory ⟨"example.com"⟩
      ⟨"example.com:alice@example.com", "alice@example.com", "admin", true, false,
        "active", "", ""⟩
      ⟨⟨[], [⟨"", "alice@example.com", "admin", "active"⟩]⟩, []⟩).diags = none :=
  ⟨rfl, rfl, rfl⟩

/-- C11 (amended): for every resolved user `u` with a non-empty id, active or
disabled and of any role, and every remote, Release with the downgrade policy
issues exactly the two writes `updateUserRole(u.id, "member")` and then
`suspendUser(u.id)`, right after the resolve, issues no remove, and returns
success with the resource data untouched, whatever the two calls return. -/
theorem delete_downgrade (lower : Char → Char) (R : Remote σ) (client : Client)
    (d : ResourceData) (s : σ) (w1 : World σ) (tn identity : String)
    (r : membershipResolveResult) (u : User)
    (hid : parseMembershipID d.Id = .ok (tn, identity))
    (hres : membershipResolve lower R client identity ⟨s, []⟩ = (.ok (some r), w1))
    (hu : r.User = some u) (hidne : u.ID ≠ "") (hdg : d.downgrade_on_destroy = true) :
    (resourceTailnetMembershipDelete lower R client d ⟨s, []⟩).diags = none ∧
    (resourceTailnetMembershipDelete lower R client d ⟨s, []⟩).w.calls =
      w1.calls ++ [Call.updateUserRole u.ID "member", Call.suspendUser u.ID] ∧
    writes (resourceTailnetMembershipDelete lower R client d ⟨s, []⟩).w.calls =
      [Call.updateUserRole u.ID "member", Call.suspendUser u.ID] ∧
    (resourceTailnetMembershipDelete lower R client d ⟨s, []⟩).d = d := by
  have hr := membershipResolve_user lower R client identity _ w1 r u hres hu
  have hstate : r.State ≠ membershipStatePending := by
    rw [hr]; exact userResult_state_ne_pending u
  have hid' : r.UserID ≠ "" := by rw [hr]; exact hidne
  have e2 : r.UserID = u.ID := by rw [hr]; rfl
  have hw1 : writes w1.calls = [] := by
    have := membershipResolve_writes lower R client identity ⟨s, []⟩
    rw [hres] at this
    simpa [writes] using this
  rw [delete_downgrade_eq lower R client d _ w1 tn identity r hid hres hstate hid' hdg, e2]
  have hc : (suspendUser R u.ID (updateUserRole R u.ID "member" w1).2).2.calls =
      w1.calls ++ [Call.updateUserRole u.ID "member", Call.suspendUser u.ID] := by
    rw [suspendUser_calls, updateUserRole_calls]
    simp
  refine ⟨rfl, hc, ?_, rfl⟩
  simp only [hc]
  unfold writes at hw1 ⊢
  rw [List.filter_append, hw1]
  rfl

/-- C11 (witness): an active admin on a remote that rejects every write: both
calls fail, both are issued, and Release succeeds. -/
theorem delete_downgrade_witness :
    (updateUserRole (directory.denying Call.isWrite) "u_downgrade" "member"
      ⟨⟨[], [⟨"u_downgrade", "alice@example.com", "admin", "active"⟩]⟩,
        [Call.usersList, Call.listUserInvites "example.com"]⟩).1 =
      some "update user role: 403 Forbidden (403): forbidden" ∧
    (resourceTailnetMembershipDelete (fun c => c) (directory.denying Call.isWrite)
      ⟨"example.com"⟩
      ⟨"example.com:alice@example.com", "alice@example.com", "admin", true, false,
        "active", "", "u_downgrade"⟩
      ⟨⟨[], [⟨"u_downgrade", "alice@example.com", "admin", "active"⟩]⟩, []⟩).diags = none ∧
    writes (resourceTailnetMembershipDelete (fun c => c) (directory.denying Call.isWrite)
      ⟨"example.com"⟩
      ⟨"example.com:alice@example.com", "alice@example.com", "admin", true, false,
        "active", "", "u_downgrade"⟩
      ⟨⟨[], [⟨"u_downgrade", "alice@example.com", "admin", "active"⟩]⟩, []⟩).w.calls =
      [Call.updateUserRole "u_downgrade" "member", Call.suspendUser "u_downgrade"] :=
  have h := delete_downgrade (fun c => c) (directory.denying Call.isWrite) ⟨"example.com"⟩
    ⟨"example.com:alice@example.com", "alice@example.com", "admin", true, false,
      "active", "", "u_downgrade"⟩
    ⟨[], [⟨"u_downgrade", "alice@example.com", "admin", "active"⟩]⟩ _ "example.com"
    "alice@example.com" (userResult ⟨"u_downgrade", "alice@example.com", "admin", "active"⟩)
    ⟨"u_downgrade", "alice@example.com", "admin", "active"⟩ rfl rfl rfl (by decide) rfl
  ⟨rfl, h.1, h.2.2.1⟩

/-- C12 (as stated, refuted): for a resolved user whose id is empty, Release
with the remove policy issues no remove call: its calls are the two listings of
Resolve, and it returns success. -/
theorem delete_remove_empty_id :
    (membershipResolve (fun c => c) directory ⟨"example.com"⟩ "alice@example.com"
      ⟨⟨[], [⟨"", "alice@example.com", "member", "active"⟩]⟩, []⟩).1 =
      .ok (some (userResult ⟨"", "alice@example.com", "member", "active"⟩)) ∧
    (resourceTailnetMembershipDelete (fun c => c) directory ⟨"example.com"⟩
      ⟨"example.com:alice@example.com", "alice@example.com", "member", false, false,
        "active", "", ""⟩
      ⟨⟨[], [⟨"", "alice@example.com", "member", "active"⟩]⟩, []⟩).w.calls =
      [Call.usersList, Call.listUserInvites "example.com"] ∧
    (resourceTailnetMembershipDelete (fun c => c) directory ⟨"example.com"⟩
      ⟨"example.com:alice@example.com", "alice@example.com", "member", false, false,
        "active", "", ""⟩
      ⟨⟨[], [⟨"", "alice@example.com", "member", "active"⟩]⟩, []⟩).diags = none :=
  ⟨rfl, rfl, rfl⟩

/-- C12 (amended): when the identity resolves to the pending state, Release
issues exactly one `deleteUserInvite` with the id of the resolved invitation and
no user mutation, whatever the removal policy; when it resolves to a user with a
non-empty id and the policy is remove, Release issues exactly one
`deleteUser(user id)` and no role or suspend call; in both branches Release
returns an error if and only if that single call fails, leaving the resource
data untouched. -/
theorem delete_single_write (lower : Char → Char) (R : Remote σ) (client : Client)
    (d : ResourceData) (s : σ) (w1 : World σ) (tn identity : String)
    (r : membershipResolveResult)
    (hid : parseMembershipID d.Id = .ok (tn, identity))
    (hres : membershipResolve lower R client identity ⟨s, []⟩ = (.ok (some r), w1)) :
    (r.State = "pending" →
      (∃ inv, r = pendingResult inv ∧
        writes (resourceTailnetMembershipDelete lower R client d ⟨s, []⟩).w.calls =
          [Call.deleteUserInvite inv.ID]) ∧
      ((resourceTailnetMembershipDelete lower R client d ⟨s, []⟩).diags ≠ none ↔
        (deleteUserInvite R r.InviteID w1).1 ≠ none) ∧
      (resourceTailnetMembershipDelete lower R client d ⟨s, []⟩).d = d) ∧
    (∀ u : User, r.User = some u → u.ID ≠ "" → d.downgrade_on_destroy = false →
      writes (resourceTailnetMembershipDelete lower R client d ⟨s, []⟩).w.calls =
        [Call.deleteUser u.ID] ∧
      ((resourceTailnetMembershipDelete lower R client d ⟨s, []⟩).diags ≠ none ↔
        (deleteUser R u.ID w1).1 ≠ none) ∧
      (resourceTailnetMembershipDelete lower R client d ⟨s, []⟩).d = d) := by
  have hw1 : writes w1.calls = [] := by
    have := membershipResolve_writes lower R client identity ⟨s, []⟩
    rw [hres] at this
    simpa [writes] using this
  constructor
  · intro hp
    rw [delete_pending_eq lower R client d _ w1 tn identity r hid hres hp]
    refine ⟨?_, ?_, rfl⟩
    · rcases membershipResolve_state lower R client identity _ w1 r hres with ⟨inv, hr⟩ | ⟨u, hr⟩
      · refine ⟨inv, hr, ?_⟩
        have e : r.InviteID = inv.ID := by rw [hr]; rfl
        simp only [deleteUserInvite_calls, e]
        unfold writes at hw1 ⊢
        rw [List.filter_append, hw1]
        rfl
      · rw [hr] at hp
        exact absurd hp (userResult_state_ne_pending u)
    · cases (deleteUserInvite R r.InviteID w1).1 <;> simp
  · intro u hu hidne hdg
    have hr := membershipResolve_user lower R client identity _ w1 r u hres hu
    have hstate : r.State ≠ membershipStatePending := by
      rw [hr]; exact userResult_state_ne_pending u
    have hid' : r.UserID ≠ "" := by rw [hr]; exact hidne
    have e2 : r.UserID = u.ID := by rw [hr]; rfl
    rw [delete_remove_eq lower R client d _ w1 tn identity r hid hres hstate hid' hdg, e2]
    refine ⟨?_, ?_, rfl⟩
    · simp only [deleteUser_calls]
      unfold writes at hw1 ⊢
      rw [List.filter_append, hw1]
      rfl
    · cases (deleteUser R u.ID w1).1 <;> simp

/-- C12 (witness): Release cancels the pending invitation "inv3". -/
theorem delete_single_write_witness :
    writes (resourceTailnetMembershipDelete (fun c => c) directory ⟨"example.com"⟩
      ⟨"example.com:alice@example.com", "alice@example.com", "member", false, false,
        "pending", "inv3", ""⟩
      ⟨⟨[⟨"inv3", "alice@example.com", "member"⟩], []⟩, []⟩).w.calls =
      [Call.deleteUserInvite "inv3"] :=
  have h := (delete_single_write (fun c => c) directory ⟨"example.com"⟩
    ⟨"example.com:alice@example.com", "alice@example.com", "member", false, false,
      "pending", "inv3", ""⟩
    ⟨[⟨"inv3", "alice@example.com", "member"⟩], []⟩ _ "example.com" "alice@example.com"
    (pendingResult ⟨"inv3", "alice@example.com", "member"⟩) rfl rfl).1 rfl
  h.1.elim (fun inv hinv => by
    have e : inv.ID = "inv3" := by
      have := congrArg membershipResolveResult.InviteID hinv.1
      exact this.symm
    exact hinv.2.trans (congrArg (fun i => [Call.deleteUserInvite i]) e))

/-- C13 (as stated, refuted): in "a:b:" the separator is the last character,
yet the identifier is accepted, with scope "a" and identity "b:". -/
theorem parse_accepts_trailing_separator :
    ("a:b:" : String).data.getLast? = some ':' ∧
    parseMembershipID "a:b:" = .ok ("a", "b:") ∧
    parseMembershipIDValues "a:b:" = ("a", "b:", none) :=
  ⟨rfl, rfl, rfl⟩

/-- C13 (amended): `parseMembershipID` returns an error whenever the separator
':' is absent from the identifier, is its first character, or occurs first as
its last character (nothing follows the first separator), and only then; on
rejection both returned components are empty, and import returns the error. In
particular "example.com:", ":alice@example.com" and "example.com" are
rejected. -/
theorem parse_rejects_malformed :
    (∀ id : String,
      (':' ∉ id.data ∨ (∃ b, id.data = ':' :: b) ∨ (∃ a, id.data = a ++ [':'] ∧ ':' ∉ a)) →
      (∃ err, parseMembershipID id = .error err) ∧
      (parseMembershipIDValues id).1 = "" ∧ (parseMembershipIDValues id).2.1 = "" ∧
      (parseMembershipIDValues id).2.2 ≠ none ∧
      ∀ d : ResourceData, d.Id = id → resourceTailnetMembershipImport d ≠ none) ∧
    (∀ (id err : String), parseMembershipID id = .error err →
      ':' ∉ id.data ∨ (∃ b, id.data = ':' :: b) ∨ (∃ a, id.data = a ++ [':'] ∧ ':' ∉ a)) ∧
    parseMembershipIDValues "example.com:" =
      ("", "", some "invalid membership id \"example.com:\" (expected tailnet:login_name)") ∧
    parseMembershipIDValues ":alice@example.com" =
      ("", "", some
        "invalid membership id \":alice@example.com\" (expected tailnet:login_name)") ∧
    parseMembershipIDValues "example.com" =
      ("", "", some "invalid membership id \"example.com\" (expected tailnet:login_name)") := by
  refine ⟨?_, parseMembershipID_error, rfl, rfl, rfl⟩
  intro id h
  have hv := parseMembershipID_reject id h
  have hp : parseMembershipID id =
      .error ("invalid membership id \"" ++ id ++ "\" (expected tailnet:login_name)") := by
    rw [parseMembershipID_values, hv]
  refine ⟨⟨_, hp⟩, by rw [hv], by rw [hv], by rw [hv]; simp, ?_⟩
  intro d hd
  unfold resourceTailnetMembershipImport
  rw [hd, hp]
  simp

/-- C13 (witness): the identifier "example.com:" ends with its first
separator. -/
theorem parse_rejects_malformed_witness :
    (∃ err, parseMembershipID "example.com:" = .error err) ∧
    (parseMembershipIDValues "example.com:").1 = "" ∧
    (parseMembershipIDValues "example.com:").2.1 = "" :=
  have h := parse_rejects_malformed.1 "example.com:"
    (Or.inr (Or.inr ⟨"example.com".data, rfl, by decide⟩))
  ⟨h.1, h.2.1, h.2.2.1⟩

/-- C14: for every tenant scope `t` that is non-empty and contains no ':' and
every non-empty login identity `l`, also one that contains ':',
`parseMembershipID (resourceTailnetMembershipID t l)` succeeds and returns
exactly `(t, l)`; import accepts that identifier, and Read, run on it for an
identity that resolves, stores `l` as `login_name`. -/
theorem id_round_trip (t l : String) (ht : t ≠ "") (hsep : ':' ∉ t.data) (hl : l ≠ "") :
    parseMembershipID (resourceTailnetMembershipID t l) = .ok (t, l) ∧
    parseMembershipIDValues (resourceTailnetMembershipID t l) = (t, l, none) ∧
    (∀ d : ResourceData, d.Id = resourceTailnetMembershipID t l →
      resourceTailnetMembershipImport d = none) ∧
    (∀ (lower : Char → Char) (σ : Type) (R : Remote σ) (client : Client) (d : ResourceData)
      (w w1 : World σ) (r : membershipResolveResult),
      d.Id = resourceTailnetMembershipID t l →
      membershipResolve lower R client l w = (.ok (some r), w1) →
      (resourceTailnetMembershipRead lower R client d w).d.login_name = l) := by
  have htd : t.data ≠ [] := fun h => ht (String.ext h)
  have hld : l.data ≠ [] := fun h => hl (String.ext h)
  have hp : parseMembershipID (resourceTailnetMembershipID t l) = .ok (t, l) :=
    parseMembershipID_split _ t.data l.data (resourceTailnetMembershipID_data t l) hsep htd hld
  refine ⟨hp, ?_, ?_, ?_⟩
  · have hv := parseMembershipID_values (resourceTailnetMembershipID t l)
    rw [hp] at hv
    rcases hvals : parseMembershipIDValues (resourceTailnetMembershipID t l) with ⟨a, b, e⟩
    rw [hvals] at hv
    cases e with
    | some err => simp at hv
    | none =>
      simp only [Except.ok.injEq, Prod.mk.injEq] at hv
      rw [hv.1, hv.2]
  · intro d hd
    unfold resourceTailnetMembershipImport
    rw [hd, hp]
  · intro lower σ R client d w w1 r hd hres
    rw [read_of_resolved lower R client d w w1 t l r (by rw [hd, hp]) hres]

/-- C14 (witness): "example.com:alice@example.com" parses to the scope
"example.com" and the identity "alice@example.com"; so does an identity that
itself contains a separator. -/
theorem id_round_trip_witness :
    parseMembershipID "example.com:alice@example.com" =
      .ok ("example.com", "alice@example.com") ∧
    parseMembershipID (resourceTailnetMembershipID "example.com" "a:b") =
      .ok ("example.com", "a:b") :=
  ⟨(id_round_trip "example.com" "alice@example.com" (by decide) (by decide) (by decide)).1,
   (id_round_trip "example.com" "a:b" (by decide) (by decide) (by decide)).1⟩

/-- C15 (as stated, refuted): on the empty directory the initial-apply path
stores, for the login name " Alice@Example.com", the identifier
"example.com: Alice@Example.com", which is not the scope, the separator and the
normalized login name; and the login name "alice@example.com", which differs
from it only in case and white space, gets another identifier. With the tailnet
"a:b" and a user that already has the login name, the path stores the empty
identifier: Read parses "a:b:alice@example.com" at its first separator and
resolves the identity "b:alice@example.com", which nothing matches. -/
theorem create_identifier_not_normalized :
    normalize (fun c => c) " Alice@Example.com" = "alice@example.com" ∧
    (resourceTailnetMembershipCreate (fun c => c) directory ⟨"example.com"⟩
      ⟨"", " Alice@Example.com", "member", false, false, "", "", ""⟩ ⟨⟨[], []⟩, []⟩).d.Id =
      "example.com: Alice@Example.com" ∧
    (resourceTailnetMembershipCreate (fun c => c) directory ⟨"example.com"⟩
      ⟨"", " Alice@Example.com", "member", false, false, "", "", ""⟩ ⟨⟨[], []⟩, []⟩).d.Id ≠
      "example.com" ++ ":" ++ normalize (fun c => c) " Alice@Example.com" ∧
    (resourceTailnetMembershipCreate (fun c => c) directory ⟨"example.com"⟩
      ⟨"", "alice@example.com", "member", false, false, "", "", ""⟩ ⟨⟨[], []⟩, []⟩).d.Id =
      "example.com:alice@example.com" ∧
    parseMembershipID "a:b:alice@example.com" = .ok ("a", "b:alice@example.com") ∧
    (resourceTailnetMembershipCreate (fun c => c) directory ⟨"a:b"⟩
      ⟨"", "alice@example.com", "member", false, false, "", "", ""⟩
      ⟨⟨[], [⟨"u1", "alice@example.com", "member", "active"⟩]⟩, []⟩).d.Id = "" := by
  refine ⟨rfl, rfl, ?_, rfl, rfl, rfl⟩
  have e : (resourceTailnetMembershipCreate (fun c => c) directory ⟨"example.com"⟩
      ⟨"", " Alice@Example.com", "member", false, false, "", "", ""⟩ ⟨⟨[], []⟩, []⟩).d.Id =
      "example.com: Alice@Example.com" := rfl
  rw [e]
  decide

/-- C15 (amended): the identifier that the initial-apply path stores is the
tenant scope (the tailnet of the client, or "-" when that is empty), then the
separator ':', then the login name as it is configured, not normalized. It is
stored when the identity is absent and the invitation is created. When the
identity already resolves, the path sets this identifier and runs Read on it:
the identifier stays when it does not parse, when Read's own Resolve fails and
when that Resolve finds the identity; it is cleared exactly when that Resolve,
run on the identity parsed from the identifier, finds nothing. That identity is
the login name itself when the tailnet contains no separator, and over the
directory model with such a tailnet the identifier of a resolving identity is
always stored. Two login names yield the same identifier only if they are
equal. -/
theorem create_identifier (lower : Char → Char) (R : Remote σ) (client : Client)
    (d : ResourceData) (s : σ) (w1 : World σ) :
    (membershipResolve lower R client d.login_name ⟨s, []⟩ = (.ok none, w1) →
      ∀ (inv : userInvite) (w2 : World σ),
        createUserInvite R client d.login_name d.role w1 = (.ok inv, w2) →
        (resourceTailnetMembershipCreate lower R client d ⟨s, []⟩).d.Id =
          (if client.Tailnet = "" then "-" else client.Tailnet) ++ ":" ++ d.login_name) ∧
    (∀ r : membershipResolveResult,
      membershipResolve lower R client d.login_name ⟨s, []⟩ = (.ok (some r), w1) →
      (∀ err : String,
        parseMembershipID
          ((if client.Tailnet = "" then "-" else client.Tailnet) ++ ":" ++ d.login_name) =
          .error err →
        (resourceTailnetMembershipCreate lower R client d ⟨s, []⟩).d.Id =
          (if client.Tailnet = "" then "-" else client.Tailnet) ++ ":" ++ d.login_name) ∧
      (∀ (tn l : String) (res : Except Diagnostic (Option membershipResolveResult))
        (w2 : World σ),
        parseMembershipID
          ((if client.Tailnet = "" then "-" else client.Tailnet) ++ ":" ++ d.login_name) =
          .ok (tn, l) →
        membershipResolve lower R client l w1 = (res, w2) →
        (resourceTailnetMembershipCreate lower R client d ⟨s, []⟩).d.Id =
          match res with
          | .ok none => ""
          | _ => (if client.Tailnet = "" then "-" else client.Tailnet) ++ ":" ++ d.login_name) ∧
      (':' ∉ client.Tailnet.data →
        parseMembershipID
          ((if client.Tailnet = "" then "-" else client.Tailnet) ++ ":" ++ d.login_name) =
          .ok (if client.Tailnet = "" then "-" else client.Tailnet, d.login_name))) ∧
    (∀ (dir : Directory) (r : membershipResolveResult) (w1' : World Directory),
      ':' ∉ client.Tailnet.data →
      membershipResolve lower directory client d.login_name ⟨dir, []⟩ = (.ok (some r), w1') →
      (resourceTailnetMembershipCreate lower directory client d ⟨dir, []⟩).d.Id =
        (if client.Tailnet = "" then "-" else client.Tailnet) ++ ":" ++ d.login_name) ∧
    (∀ t l₁ l₂ : String,
      resourceTailnetMembershipID t l₁ = resourceTailnetMembershipID t l₂ → l₁ = l₂) := by
  refine ⟨?_, ?_, ?_, resourceTailnetMembershipID_injective⟩
  · intro hres inv w2 hc
    unfold resourceTailnetMembershipCreate
    simp only [hres, hc]
    rfl
  · intro r hres
    have hne := (membershipResolve_ok lower R client d.login_name _ w1 _ hres).1
    rw [create_of_resolved lower R client d _ w1 r hres]
    refine ⟨?_, ?_, ?_⟩
    · intro err hp
      exact (read_id_cases lower R client _ w1).1 err hp
    · intro tn l res w2 hp hr
      exact (read_id_cases lower R client _ w1).2 tn l res w2 hp hr
    · intro hsep
      exact parse_created_id client d.login_name hsep (ne_empty_of_normalize lower _ hne)
  · intro dir r w1' hsep hres
    have hne := (membershipResolve_ok lower directory client d.login_name _ w1' _ hres).1
    have hp := parse_created_id client d.login_name hsep (ne_empty_of_normalize lower _ hne)
    have h1 := directory_resolve lower client d.login_name dir [] hne
    rw [h1] at hres
    simp only [Prod.mk.injEq, Except.ok.injEq] at hres
    obtain ⟨hr, hw⟩ := hres
    have h2 := directory_resolve lower client d.login_name dir
      ([] ++ [Call.usersList, Call.listUserInvites client.Tailnet]) hne
    rw [hr] at h1 h2
    rw [create_of_resolved lower directory client d _ _ r h1]
    exact (read_id_cases lower directory client _ _).2 _ _ _ _ hp h2

/-- C15 (witness): the identifier stored for " Alice@Example.com" on the empty
directory, and the one stored for "Alice@Example.com" when a user with that
login name exists. -/
theorem create_identifier_witness :
    (resourceTailnetMembershipCreate (fun c => c) directory ⟨"example.com"⟩
      ⟨"", " Alice@Example.com", "member", false, false, "", "", ""⟩ ⟨⟨[], []⟩, []⟩).d.Id =
      (if (Client.mk "example.com").Tailnet = "" then "-" else (Client.mk "example.com").Tailnet)
        ++ ":" ++ " Alice@Example.com" ∧
    (resourceTailnetMembershipCreate (fun c => c) directory ⟨"example.com"⟩
      ⟨"", "Alice@Example.com", "member", false, false, "", "", ""⟩
      ⟨⟨[], [⟨"u1", "alice@example.com", "member", "active"⟩]⟩, []⟩).d.Id =
      (if (Client.mk "example.com").Tailnet = "" then "-" else (Client.mk "example.com").Tailnet)
        ++ ":" ++ "Alice@Example.com" :=
  ⟨(create_identifier (fun c => c) directory ⟨"example.com"⟩
      ⟨"", " Alice@Example.com", "member", false, false, "", "", ""⟩ ⟨[], []⟩ _).1 rfl _ _ rfl,
   (create_identifier (fun c => c) directory ⟨"example.com"⟩
      ⟨"", "Alice@Example.com", "member", false, false, "", "", ""⟩ ⟨[], []⟩
      ⟨⟨[], []⟩, []⟩).2.2.1 ⟨[], [⟨"u1", "alice@example.com", "member", "active"⟩]⟩
      (userResult ⟨"u1", "alice@example.com", "member", "active"⟩) _ (by decide) rfl⟩

/-- C16 (as stated, refuted): the initial-apply path does not parse the
identifier of the resource data: with the malformed identifiers "example.com"
and "" it lists, creates the invitation and succeeds. -/
theorem create_with_malformed_identifier :
    parseMembershipID "example.com" =
      .error "invalid membership id \"example.com\" (expected tailnet:login_name)" ∧
    (resourceTailnetMembershipCreate (fun c => c) directory ⟨"example.com"⟩
      ⟨"example.com", "alice@example.com", "member", false, false, "", "", ""⟩
      ⟨⟨[], []⟩, []⟩).diags = none ∧
    (resourceTailnetMembershipCreate (fun c => c) directory ⟨"example.com"⟩
      ⟨"example.com", "alice@example.com", "member", false, false, "", "", ""⟩
      ⟨⟨[], []⟩, []⟩).w.calls =
      [Call.usersList, Call.listUserInvites "example.com",
       Call.createUserInvite "example.com" "alice@example.com" "member"] ∧
    parseMembershipID "" = .error "invalid membership id \"\" (expected tailnet:login_name)" ∧
    (resourceTailnetMembershipCreate (fun c => c) directory ⟨"example.com"⟩
      ⟨"", "alice@example.com", "member", false, false, "", "", ""⟩
      ⟨⟨[], []⟩, []⟩).diags = none ∧
    (resourceTailnetMembershipCreate (fun c => c) directory ⟨"example.com"⟩
      ⟨"", "alice@example.com", "member", false, false, "", "", ""⟩
      ⟨⟨[], []⟩, []⟩).w.calls =
      [Call.usersList, Call.listUserInvites "example.com",
       Call.createUserInvite "example.com" "alice@example.com" "member"] :=
  ⟨rfl, rfl, rfl, rfl, rfl, rfl⟩

/-- C16 (amended): no write without a successful resolve. When the persisted
identifier is malformed, the update path and Release return the parse error and
issue no remote call at all. When Resolve fails, the initial-apply path, the
update path and Release return its error, leave the resource data untouched and
issue no Gateway write; and Resolve fails when the identity is empty after
normalization, when the user listing fails and when the invite listing fails.
The initial-apply path reads no identifier: its diagnostics, its calls and the
remote state it leaves are the same whatever the identifier holds. -/
theorem no_write_without_resolve (lower : Char → Char) (R : Remote σ) (client : Client)
    (s : σ) :
    (∀ (d : ResourceData) (err : String), parseMembershipID d.Id = .error err →
      resourceTailnetMembershipUpdate lower R client d ⟨s, []⟩ =
        ⟨some (diagFromErr err), d, ⟨s, []⟩⟩ ∧
      resourceTailnetMembershipDelete lower R client d ⟨s, []⟩ =
        ⟨some (diagFromErr err), d, ⟨s, []⟩⟩) ∧
    (∀ (identity : String) (e : Diagnostic) (w1 : World σ),
      membershipResolve lower R client identity ⟨s, []⟩ = (.error e, w1) →
      writes w1.calls = [] ∧
      (∀ d : ResourceData, d.login_name = identity →
        resourceTailnetMembershipCreate lower R client d ⟨s, []⟩ = ⟨some e, d, w1⟩) ∧
      (∀ (d : ResourceData) (tn : String), parseMembershipID d.Id = .ok (tn, identity) →
        resourceTailnetMembershipUpdate lower R client d ⟨s, []⟩ = ⟨some e, d, w1⟩ ∧
        resourceTailnetMembershipDelete lower R client d ⟨s, []⟩ = ⟨some e, d, w1⟩)) ∧
    (∀ identity : String, normalize lower identity = "" →
      membershipResolve lower R client identity ⟨s, []⟩ =
        (.error (diagErrorf "login_name is empty"), ⟨s, []⟩)) ∧
    (∀ (identity err : String) (w1 : World σ), normalize lower identity ≠ "" →
      usersList R ⟨s, []⟩ = (.error err, w1) →
      membershipResolve lower R client identity ⟨s, []⟩ =
        (.error (diagnosticsError err "Failed to list users for membership resolve"), w1)) ∧
    (∀ (identity err : String) (users : List User) (w1 w2 : World σ),
      normalize lower identity ≠ "" → usersList R ⟨s, []⟩ = (.ok users, w1) →
      listUserInvites R client w1 = (.error err, w2) →
      membershipResolve lower R client identity ⟨s, []⟩ =
        (.error (diagnosticsError err "Failed to list user invites for membership resolve"),
          w2)) ∧
    (∀ (d : ResourceData) (id : String),
      (resourceTailnetMembershipCreate lower R client { d with Id := id } ⟨s, []⟩).diags =
        (resourceTailnetMembershipCreate lower R client d ⟨s, []⟩).diags ∧
      (resourceTailnetMembershipCreate lower R client { d with Id := id } ⟨s, []⟩).w =
        (resourceTailnetMembershipCreate lower R client d ⟨s, []⟩).w) := by
  refine ⟨?_, ?_, ?_, ?_, ?_, fun d id => create_ignores_id lower R client d _ id⟩
  · intro d err hid
    constructor
    · unfold resourceTailnetMembershipUpdate
      simp only [hid]
    · unfold resourceTailnetMembershipDelete
      simp only [hid]
  · intro identity e w1 hres
    refine ⟨?_, ?_, ?_⟩
    · have := membershipResolve_writes lower R client identity ⟨s, []⟩
      rw [hres] at this
      simpa [writes] using this
    · intro d hd
      subst hd
      unfold resourceTailnetMembershipCreate
      simp only [hres]
    · intro d tn hid
      constructor
      · unfold resourceTailnetMembershipUpdate
        simp only [hid, hres]
      · unfold resourceTailnetMembershipDelete
        simp only [hid, hres]
  · intro identity h
    exact membershipResolve_empty lower R client identity _ h
  · intro identity err w1 hne hu
    exact membershipResolve_users_error lower R client identity _ w1 err hne hu
  · intro identity err users w1 w2 hne hu hi
    exact membershipResolve_invites_error lower R client identity _ w1 w2 users err hne hu hi

/-- C16 (witness): the update path on the identifier "example.com", which has
no separator, issues no call; and Release on a remote that rejects the invite
listing returns the listing error without a write. -/
theorem no_write_without_resolve_witness :
    resourceTailnetMembershipUpdate (fun c => c) directory ⟨"example.com"⟩
      ⟨"example.com", "alice@example.com", "member", false, false, "", "", ""⟩
      ⟨⟨[], []⟩, []⟩ =
      ⟨some (diagFromErr
          "invalid membership id \"example.com\" (expected tailnet:login_name)"),
        ⟨"example.com", "alice@example.com", "member", false, false, "", "", ""⟩,
        ⟨⟨[], []⟩, []⟩⟩ ∧
    resourceTailnetMembershipDelete (fun c => c) (directory.denying (fun _ => true))
      ⟨"example.com"⟩
      ⟨"example.com:alice@example.com", "alice@example.com", "member", false, false,
        "", "", ""⟩
      ⟨⟨[], [⟨"u1", "alice@example.com", "member", "active"⟩]⟩, []⟩ =
      ⟨some (diagnosticsError "list user invites: 403 Forbidden (403): forbidden"
          "Failed to list user invites for membership resolve"),
        ⟨"example.com:alice@example.com", "alice@example.com", "member", false, false,
          "", "", ""⟩,
        ⟨⟨[], [⟨"u1", "alice@example.com", "member", "active"⟩]⟩,
          [Call.usersList, Call.listUserInvites "example.com"]⟩⟩ :=
  ⟨((no_write_without_resolve (fun c => c) directory ⟨"example.com"⟩ ⟨[], []⟩).1
      ⟨"example.com", "alice@example.com", "member", false, false, "", "", ""⟩ _ rfl).1,
   (((no_write_without_resolve (fun c => c) (directory.denying (fun _ => true))
      ⟨"example.com"⟩ ⟨[], [⟨"u1", "alice@example.com", "member", "active"⟩]⟩).2.1
      "alice@example.com" _ _ rfl).2.2
      ⟨"example.com:alice@example.com", "alice@example.com", "member", false, false,
        "", "", ""⟩ "example.com" rfl).2⟩

/-- C17 (as stated, refuted): the response code 204 is a 2xx code, and each of
the five wrappers returns an error for it. -/
theorem gateway_rejects_204 :
    (200 ≤ (Response.mk 204 "204 No Content" ⟨"", .ok []⟩).StatusCode ∧
      (Response.mk 204 "204 No Content" ⟨"", .ok []⟩).StatusCode < 300) ∧
    (deleteUserInvite (answering ⟨204, "204 No Content", ⟨"", .ok []⟩⟩) "inv1" ⟨(), []⟩).1 =
      some "delete user invite: 204 No Content (204): " ∧
    (suspendUser (answering ⟨204, "204 No Content", ⟨"", .ok []⟩⟩) "u1" ⟨(), []⟩).1 =
      some "suspend user: 204 No Content (204): " ∧
    (restoreUser (answering ⟨204, "204 No Content", ⟨"", .ok []⟩⟩) "u1" ⟨(), []⟩).1 =
      some "restore user: 204 No Content (204): " ∧
    (deleteUser (answering ⟨204, "204 No Content", ⟨"", .ok []⟩⟩) "u1" ⟨(), []⟩).1 =
      some "delete user: 204 No Content (204): " ∧
    (updateUserRole (answering ⟨204, "204 No Content", ⟨"", .ok []⟩⟩) "u1" "admin"
      ⟨(), []⟩).1 = some "update user role: 204 No Content (204): " :=
  ⟨by decide, rfl, rfl, rfl, rfl, rfl⟩

/-- C17 (amended): for every response of the remote, `deleteUserInvite`,
`suspendUser`, `restoreUser`, `deleteUser` and `updateUserRole` return success
when the status code is 200 or 404 (not found is treated as success) and return
an error exactly when it is neither, any other 2xx code included; the error text
is the name of the operation followed by the status, the status code and the
body of the response. A failed round trip is returned as it is. -/
theorem gateway_status (R : Remote σ) (w : World σ) :
    (∀ (c : Call) (resp : Response), (R.roundTrip c w.remote).1 = .ok resp →
      ∀ (id role : String),
        (c = Call.deleteUserInvite id → (deleteUserInvite R id w).1 =
          if resp.StatusCode = 200 ∨ resp.StatusCode = 404 then none
          else some ("delete user invite: " ++ resp.Status ++ " (" ++
            toString resp.StatusCode ++ "): " ++ resp.Body.text)) ∧
        (c = Call.suspendUser id → (suspendUser R id w).1 =
          if resp.StatusCode = 200 ∨ resp.StatusCode = 404 then none
          else some ("suspend user: " ++ resp.Status ++ " (" ++
            toString resp.StatusCode ++ "): " ++ resp.Body.text)) ∧
        (c = Call.restoreUser id → (restoreUser R id w).1 =
          if resp.StatusCode = 200 ∨ resp.StatusCode = 404 then none
          else some ("restore user: " ++ resp.Status ++ " (" ++
            toString resp.StatusCode ++ "): " ++ resp.Body.text)) ∧
        (c = Call.deleteUser id → (deleteUser R id w).1 =
          if resp.StatusCode = 200 ∨ resp.StatusCode = 404 then none
          else some ("delete user: " ++ resp.Status ++ " (" ++
            toString resp.StatusCode ++ "): " ++ resp.Body.text)) ∧
        (c = Call.updateUserRole id role → (updateUserRole R id role w).1 =
          if resp.StatusCode = 200 ∨ resp.StatusCode = 404 then none
          else some ("update user role: " ++ resp.Status ++ " (" ++
            toString resp.StatusCode ++ "): " ++ resp.Body.text))) ∧
    (∀ (c : Call) (err : String), (R.roundTrip c w.remote).1 = .error err →
      ∀ (id role : String),
        (c = Call.deleteUserInvite id → (deleteUserInvite R id w).1 = some err) ∧
        (c = Call.suspendUser id → (suspendUser R id w).1 = some err) ∧
        (c = Call.restoreUser id → (restoreUser R id w).1 = some err) ∧
        (c = Call.deleteUser id → (deleteUser R id w).1 = some err) ∧
        (c = Call.updateUserRole id role → (updateUserRole R id role w).1 = some err)) := by
  constructor
  · intro c resp h id role
    refine ⟨?_, ?_, ?_, ?_, ?_⟩ <;> intro hc <;> subst hc
    · unfold deleteUserInvite doCall
      rw [h, checkStatus_ok]; rfl
    · unfold suspendUser doCall
      rw [h, checkStatus_ok]; rfl
    · unfold restoreUser doCall
      rw [h, checkStatus_ok]; rfl
    · unfold deleteUser doCall
      rw [h, checkStatus_ok]; rfl
    · unfold updateUserRole doCall
      rw [h, checkStatus_ok]; rfl
  · intro c err h id role
    refine ⟨?_, ?_, ?_, ?_, ?_⟩ <;> intro hc <;> subst hc
    · unfold deleteUserInvite doCall
      rw [h, checkStatus_error]
    · unfold suspendUser doCall
      rw [h, checkStatus_error]
    · unfold restoreUser doCall
      rw [h, checkStatus_error]
    · unfold deleteUser doCall
      rw [h, checkStatus_error]
    · unfold updateUserRole doCall
      rw [h, checkStatus_error]

/-- C17 (witness): a 404 answer to `deleteUser` is a success, a 500 answer to
`suspendUser` an error that carries the code and the body. -/
theorem gateway_status_witness :
    (deleteUser (answering ⟨404, "404 Not Found", ⟨"gone", .ok []⟩⟩) "u1" ⟨(), []⟩).1 =
      (if (Response.mk 404 "404 Not Found" ⟨"gone", .ok []⟩).StatusCode = 200 ∨
          (Response.mk 404 "404 Not Found" ⟨"gone", .ok []⟩).StatusCode = 404 then none
       else some ("delete user: " ++ "404 Not Found" ++ " (" ++ toString 404 ++ "): " ++
        "gone")) ∧
    (suspendUser (answering ⟨500, "500 Internal Server Error", ⟨"boom", .ok []⟩⟩) "u1"
      ⟨(), []⟩).1 =
      (if (Response.mk 500 "500 Internal Server Error" ⟨"boom", .ok []⟩).StatusCode = 200 ∨
          (Response.mk 500 "500 Internal Server Error" ⟨"boom", .ok []⟩).StatusCode = 404
       then none
       else some ("suspend user: " ++ "500 Internal Server Error" ++ " (" ++ toString 500 ++
        "): " ++ "boom")) :=
  ⟨((gateway_status (answering ⟨404, "404 Not Found", ⟨"gone", .ok []⟩⟩) ⟨(), []⟩).1
      (Call.deleteUser "u1") _ rfl "u1" "").2.2.2.1 rfl,
   ((gateway_status (answering ⟨500, "500 Internal Server Error", ⟨"boom", .ok []⟩⟩)
      ⟨(), []⟩).1 (Call.suspendUser "u1") _ rfl "u1" "").2.1 rfl⟩

end Tailscale
